import Mathlib

/-!
Shallow embedding of the calendar-group content script
(src/src/content.ts of the calendar_quick_switch repository).

The DOM is modelled explicitly: a checkbox element is a record of the
attributes and surrounding text that the label-resolution chain reads; the
virtualized list is a function from the scroll offset to the list of
checkbox elements currently materialized in the DOM; the mutable state is
the vector of checked flags plus the scroll offset.  A click counter
instruments the state so that claims about "activation calls" are
statements about a number.  Timed waits are instrumented (in milliseconds)
only where a claim is about time, namely in the section-locator retry loop
and the page-load gate.
-/

/-! ## JavaScript string primitives -/

/-- The whitespace characters stripped by the JS `String.prototype.trim`
(restricted to the ASCII ones that can occur in our model). -/
def jsWs (c : Char) : Bool :=
  c = ' ' || c = '\t' || c = '\n' || c = '\r'

/-- JS `String.prototype.trim`: strip whitespace from both ends. -/
def jsTrim (s : String) : String :=
  ⟨((s.data.dropWhile jsWs).reverse.dropWhile jsWs).reverse⟩

/-- Substring test on character lists, as in JS `String.prototype.includes`. -/
def listContainsSeq (pat : List Char) : List Char → Bool
  | [] => pat.isPrefixOf ([] : List Char)
  | c :: rest => pat.isPrefixOf (c :: rest) || listContainsSeq pat rest

/-- JS `s.includes(pat)` (case-sensitive substring containment). -/
def containsSub (s pat : String) : Bool :=
  listContainsSeq pat.data s.data

/-- The literal word the resolver treats as a rendering artifact. -/
def checkboxWord : String := "checkbox"

/-- One pass of JS `s.replace(/checkbox/gi, "")` over a character list:
remove every case-insensitive occurrence of "checkbox", scanning left to
right and resuming after each removed occurrence.  The fuel argument is
always instantiated with the length of the list (which bounds the number
of scanning steps); it only makes the recursion structural. -/
def stripCheckboxGo : Nat → List Char → List Char
  | _, [] => []
  | 0, l => l
  | fuel + 1, c :: rest =>
    if checkboxWord.data.isPrefixOf (((c :: rest).take 8).map Char.toLower) then
      stripCheckboxGo fuel ((c :: rest).drop 8)
    else
      c :: stripCheckboxGo fuel rest

/-- JS `s.replace(/checkbox/gi, "")`. -/
def stripCheckboxCI (s : String) : String :=
  ⟨stripCheckboxGo s.data.length s.data⟩

/-- JS truthiness of a `string | null` value: `null` and `""` are falsy. -/
def jsTruthy (o : Option String) : Bool :=
  match o with
  | some s => s != ""
  | none => false

/-- JS `a || b` on `string | null` values: the first operand if truthy,
otherwise the second operand unchanged. -/
def jsOr (a b : Option String) : Option String :=
  if jsTruthy a then a else b

/-! ## Data model

`LabelEl` is the first `label`/`span`/`div` descendant of the container
that `checkbox.closest("div, li, span")` yields.  `CbElem` is one
`input[type="checkbox"]` element together with everything the content
script can read around it.  `Dom` is the static part of the page:
virtualization is the `renderedAt` function, giving the indices (into
`elems`, in document order) of the checkbox elements that exist in the DOM
at a given scroll offset of the drawer container.  `DomState` is the
mutable part: the checked flag of every checkbox element, the scroll
offset, and the instrumentation counter of synthetic `click()` calls. -/

/-- A label-like element: its `aria-label` attribute and its `textContent`. -/
structure LabelEl where
  ariaLabel : Option String
  textContent : String
deriving DecidableEq

/-- One checkbox element with its surrounding DOM context.
`container` is the result of `closest("div, li, span")`: `none` when no such
ancestor exists, `some none` when the ancestor has no `label`/`span`/`div`
descendant, and `some (some le)` when its first such descendant is `le`.
`ancestorTexts` lists the `textContent` of `parentElement`,
`parentElement.parentElement`, ... as far as the chain goes.
`closestHint` tells whether `closest` on a structural-hint selector
succeeds for this element, and `ancestorCounts` lists, for each ancestor
strictly below `document.body`, how many checkbox elements it contains
(data read by the common-parent fallback of the section locator).
`inSection` tells whether the element is a descendant of the located
calendar section. -/
structure CbElem where
  ariaLabelledBy : Option String
  ariaLabel : Option String
  container : Option (Option LabelEl)
  ancestorTexts : List String
  dataName : Option String
  dataCalendarName : Option String
  dataLabel : Option String
  closestHint : Bool
  ancestorCounts : List Nat
  inSection : Bool
deriving DecidableEq

/-- A candidate section returned by one entry of `CT_CALENDAR_SELECTORS`:
all the locator reads from it is its number of checkbox descendants. -/
structure SectionCand where
  checkboxCount : Nat
deriving DecidableEq

/-- The drawer scroll container: the two geometry fields the scroll search
reads.  The maximal scroll offset is `scrollHeight - clientHeight`. -/
structure Drawer where
  scrollHeight : Nat
  clientHeight : Nat
deriving DecidableEq

/-- The static part of the page, as seen by the content script.
`byId id` is the `textContent` of the element `document.getElementById id`
returns, or `none` when there is none.  `selectorHits` is the result of
`document.querySelector` for each entry of `CT_CALENDAR_SELECTORS`, in
order.  `renderedAt p` lists, in document order, the indices into `elems`
of the checkbox elements present in the DOM when the drawer scroll offset
is `p` (the virtualized list materializes rows by scroll position). -/
structure Dom where
  byId : String → Option String
  selectorHits : List (Option SectionCand)
  elems : List CbElem
  renderedAt : Nat → List Nat
  drawer : Option Drawer

/-- The mutable state: checked flag per checkbox element (indexed like
`Dom.elems`), the drawer scroll offset, and the number of synthetic
`click()` calls issued so far (instrumentation). -/
structure DomState where
  checked : List Bool
  scrollTop : Nat
  clicks : Nat
deriving DecidableEq

/-- The stored group record (`CalendarGroup` in `content.ts`). -/
structure CalendarGroup where
  id : String
  name : String
  calendars : List String
  createdAt : Nat
  updatedAt : Nat

/-- One entry of the collector result (`CalendarCheckbox` in `content.ts`):
the element (by index), its resolved label, its checked flag at snapshot
time. -/
structure CalendarCheckbox where
  idx : Nat
  label : String
  checked : Bool
deriving DecidableEq

/-! ## Label resolution (`ctGetCalendarLabel`, content.ts lines 195-248) -/

/-- Strategy 1: the `aria-labelledby` attribute names another element; use
that element's trimmed `textContent` when non-empty. -/
def ctLabelFromLabelledBy (byId : String → Option String) (cb : CbElem) : Option String :=
  match cb.ariaLabelledBy with
  | none => none
  | some idref =>
    if idref != "" then
      match byId idref with
      | none => none
      | some txt =>
        let t := jsTrim txt
        if t != "" then some t else none
    else none

/-- Strategy 2: the element's own `aria-label` attribute, returned raw when
truthy. -/
def ctLabelFromAriaLabel (cb : CbElem) : Option String :=
  if jsTruthy cb.ariaLabel then cb.ariaLabel else none

/-- Strategy 3: the first label-like descendant of
`closest("div, li, span")`; prefer its truthy `aria-label`, else its
trimmed text when non-empty and not containing the substring "checkbox". -/
def ctLabelFromContainer (cb : CbElem) : Option String :=
  match cb.container with
  | some (some le) =>
    if jsTruthy le.ariaLabel then le.ariaLabel
    else
      let t := jsTrim le.textContent
      if t != "" && t.length > 0 && !(containsSub t checkboxWord) then some t
      else none
  | some none => none
  | none => none

/-- Strategy 4: walk up to 3 parent levels; at each, take the trimmed
subtree text when non-empty and shorter than 100 characters, strip every
case-insensitive "checkbox", and accept the trimmed remainder when
non-empty. -/
def ctAncestorTextScan : List String → Nat → Option String
  | _, 0 => none
  | [], _ => none
  | txt :: rest, n + 1 =>
    let t := jsTrim txt
    if t != "" && t.length > 0 && t.length < 100 then
      let w := jsTrim (stripCheckboxCI t)
      if w.length > 0 then some w else ctAncestorTextScan rest n
    else ctAncestorTextScan rest n

/-- Strategy 5: the `data-name`, `data-calendar-name`, `data-label`
attributes, combined with JS `||` and returned when truthy. -/
def ctLabelFromDataAttrs (cb : CbElem) : Option String :=
  let d := jsOr (jsOr cb.dataName cb.dataCalendarName) cb.dataLabel
  if jsTruthy d then d else none

/-- `ctGetCalendarLabel`: the ordered strategy chain; the first strategy
that produces a value wins, and `none` is returned when all fail. -/
def ctGetCalendarLabel (byId : String → Option String) (cb : CbElem) : Option String :=
  match ctLabelFromLabelledBy byId cb with
  | some r => some r
  | none =>
    match ctLabelFromAriaLabel cb with
    | some r => some r
    | none =>
      match ctLabelFromContainer cb with
      | some r => some r
      | none =>
        match ctAncestorTextScan cb.ancestorTexts 3 with
        | some r => some r
        | none => ctLabelFromDataAttrs cb

/-! ## Section locator (`ctFindCalendarSection`, content.ts lines 133-187) -/

/-- The selector pass: walk `CT_CALENDAR_SELECTORS` in order and accept the
first hit that contains at least one checkbox descendant. -/
def ctSelectorPass : List (Option SectionCand) → Option Unit
  | [] => none
  | none :: rest => ctSelectorPass rest
  | some c :: rest => if c.checkboxCount > 0 then some () else ctSelectorPass rest

/-- First fallback: for each checkbox on the page (in document order),
accept the first whose `closest` on the structural-hint selector succeeds. -/
def ctClosestPass (dom : Dom) : List Nat → Option Unit
  | [] => none
  | i :: rest =>
    match dom.elems[i]? with
    | some e => if e.closestHint then some () else ctClosestPass dom rest
    | none => ctClosestPass dom rest

/-- Second fallback: walk the ancestors of the first checkbox and accept
the first whose checkbox-descendant count is at least half the page-wide
count (`childCheckboxes.length >= allCheckboxes.length * 0.5`, exact as
`2 * cnt >= total`). -/
def ctCommonParentPass (total : Nat) : List Nat → Option Unit
  | [] => none
  | cnt :: rest => if 2 * cnt ≥ total then some () else ctCommonParentPass total rest

/-- One retry round of the section locator: the selector pass, then (when
the page has any checkbox) the closest-ancestor fallback, then the
common-parent fallback on the first checkbox. -/
def ctTryFindSectionOnce (dom : Dom) (scrollTop : Nat) : Option Unit :=
  match ctSelectorPass dom.selectorHits with
  | some s => some s
  | none =>
    let rendered := dom.renderedAt scrollTop
    if rendered.length > 0 then
      match ctClosestPass dom rendered with
      | some s => some s
      | none =>
        match rendered with
        | [] => none
        | first :: _ =>
          match dom.elems[first]? with
          | some e => ctCommonParentPass rendered.length e.ancestorCounts
          | none => none
    else none

/-- The retry loop of `ctFindCalendarSection`: up to `fuel` rounds (10 in
the source); a failed round sleeps 500 ms before the next.  The second
component is the total milliseconds slept. -/
def ctFindCalendarSectionGo (dom : Dom) (st : DomState) : Nat → Option Unit × Nat
  | 0 => (none, 0)
  | n + 1 =>
    match ctTryFindSectionOnce dom st.scrollTop with
    | some s => (some s, 0)
    | none =>
      let r := ctFindCalendarSectionGo dom st n
      (r.1, 500 + r.2)

/-- `ctFindCalendarSection`: 10 retry rounds, 500 ms apart; `none` after
exhausting them.  Returns the result and the milliseconds slept. -/
def ctFindCalendarSection (dom : Dom) (st : DomState) : Option Unit × Nat :=
  ctFindCalendarSectionGo dom st 10

/-! ## Collector (`ctGetCalendarCheckboxes`, content.ts lines 254-277) -/

/-- The checkbox elements inside the located section, in document order:
`section.querySelectorAll('input[type="checkbox"]')`. -/
def ctSectionCheckboxIds (dom : Dom) (scrollTop : Nat) : List Nat :=
  (dom.renderedAt scrollTop).filter (fun i =>
    match dom.elems[i]? with
    | some e => e.inSection
    | none => false)

/-- The collector loop: resolve each checkbox label and push an entry when
the label is non-null; silently skip the element otherwise. -/
def ctCollectLoop (dom : Dom) (checked : List Bool) : List Nat → List CalendarCheckbox
  | [] => []
  | i :: rest =>
    match dom.elems[i]? with
    | none => ctCollectLoop dom checked rest
    | some e =>
      match ctGetCalendarLabel dom.byId e with
      | some l => ⟨i, l, checked.getD i false⟩ :: ctCollectLoop dom checked rest
      | none => ctCollectLoop dom checked rest

/-- `ctGetCalendarCheckboxes`: locate the section once; on failure return
the empty list, otherwise collect the labelled checkboxes inside it.  The
second component is the milliseconds slept (all inside the locator). -/
def ctGetCalendarCheckboxes (dom : Dom) (st : DomState) : List CalendarCheckbox × Nat :=
  let fs := ctFindCalendarSection dom st
  match fs.1 with
  | none => ([], fs.2)
  | some _ => (ctCollectLoop dom st.checked (ctSectionCheckboxIds dom st.scrollTop), fs.2)

/-! ## Toggling (`ctToggleCheckbox`, content.ts lines 284-288) -/

/-- `ctToggleCheckbox`: when the current checked state differs from the
desired one, fire the native `click()` (which flips the checked flag) and
bump the instrumentation counter; otherwise do nothing. -/
def ctToggleCheckbox (st : DomState) (i : Nat) (target : Bool) : DomState :=
  if st.checked.getD i false != target then
    { st with
      checked := st.checked.set i (!(st.checked.getD i false)),
      clicks := st.clicks + 1 }
  else st

/-! ## Direct lookup (`ctFindCheckboxByLabel`, content.ts lines 324-343) -/

/-- The lookup loop: over the page-wide checkbox list (document order),
return the first element whose resolved label, trimmed, equals the trimmed
target label. -/
def ctFindCheckboxByLabelGo (dom : Dom) (label : String) : List Nat → Option Nat
  | [] => none
  | i :: rest =>
    match dom.elems[i]? with
    | none => ctFindCheckboxByLabelGo dom label rest
    | some e =>
      match ctGetCalendarLabel dom.byId e with
      | none => ctFindCheckboxByLabelGo dom label rest
      | some l =>
        if jsTrim l = jsTrim label then some i
        else ctFindCheckboxByLabelGo dom label rest

/-- `ctFindCheckboxByLabel`: document-wide direct lookup among the
currently rendered checkboxes. -/
def ctFindCheckboxByLabel (dom : Dom) (scrollTop : Nat) (label : String) : Option Nat :=
  ctFindCheckboxByLabelGo dom label (dom.renderedAt scrollTop)

/-! ## Scroll search (`ctFindAndScrollToCheckbox`, content.ts lines 350-409) -/

/-- The maximal drawer scroll offset, `scrollHeight - clientHeight`
(truncated at 0, as the browser clamps). -/
def maxScrollOf (d : Drawer) : Nat :=
  d.scrollHeight - d.clientHeight

/-- The downward sweep: up to `fuel` steps (10 in the source).  Each step
advances the local offset by 200, assigns it to the container (the browser
clamps the assignment to the maximal offset), waits 300 ms, re-runs the
direct lookup, and stops early on a match or when the clamped offset has
reached the maximum.  Returns the result, the final clamped offset, and
the number of steps performed. -/
def ctScrollDown (dom : Dom) (d : Drawer) (label : String) :
    Nat → Nat → Nat → Option Nat × Nat × Nat
  | _, top, 0 => (none, top, 0)
  | cur, _, fuel + 1 =>
    let cur2 := cur + 200
    let top2 := min cur2 (maxScrollOf d)
    match ctFindCheckboxByLabel dom top2 label with
    | some i => (some i, top2, 1)
    | none =>
      if top2 ≥ maxScrollOf d then (none, top2, 1)
      else
        let r := ctScrollDown dom d label cur2 top2 fuel
        (r.1, r.2.1, r.2.2 + 1)

/-- The upward sweep: up to `fuel` steps (10 in the source).  Each step
retreats the local offset by 200 (floored at 0), assigns it, waits 300 ms,
re-runs the direct lookup, and stops early on a match or when the local
offset has reached 0. -/
def ctScrollUp (dom : Dom) (d : Drawer) (label : String) :
    Nat → Nat → Option Nat × Nat × Nat
  | top, 0 => (none, top, 0)
  | cur, fuel + 1 =>
    let cur2 := cur - 200
    let top2 := min cur2 (maxScrollOf d)
    match ctFindCheckboxByLabel dom top2 label with
    | some i => (some i, top2, 1)
    | none =>
      if cur2 ≤ 0 then (none, top2, 1)
      else
        let r := ctScrollUp dom d label cur2 fuel
        (r.1, r.2.1, r.2.2 + 1)

/-- `ctFindAndScrollToCheckbox`: direct lookup first; then, when a drawer
container is found, the downward sweep followed (on failure) by the upward
sweep; `none` when both sweeps exhaust.  Returns the result, the state
with the final scroll offset, and the step counts of the two sweeps. -/
def ctFindAndScrollToCheckbox (dom : Dom) (st : DomState) (label : String) :
    Option Nat × DomState × Nat × Nat :=
  match ctFindCheckboxByLabel dom st.scrollTop label with
  | some i => (some i, st, 0, 0)
  | none =>
    match dom.drawer with
    | none => (none, st, 0, 0)
    | some d =>
      let down := ctScrollDown dom d label st.scrollTop st.scrollTop 10
      match down.1 with
      | some i => (some i, { st with scrollTop := down.2.1 }, down.2.2, 0)
      | none =>
        let up := ctScrollUp dom d label down.2.1 10
        (up.1, { st with scrollTop := up.2.1 }, down.2.2, up.2.2)

/-! ## Load gate (`ctWaitForCalendarLoad`, content.ts lines 416-476) -/

/-- The poll loop of `ctWaitForCalendarLoad`, with the elapsed milliseconds
made explicit.  While less than 30000 ms have elapsed: locate the section
(its retries consume time); when found, run the collector (its internal
locator call consumes time) and succeed on a non-empty result; otherwise
sleep the 1000 ms poll interval and repeat.  On exhausting the budget,
fail carrying the page-wide raw checkbox count and the elapsed time at the
throw. -/
def ctWaitForCalendarLoadGo (dom : Dom) (st : DomState) (elapsed : Nat) :
    Except (Nat × Nat) Unit :=
  if elapsed < 30000 then
    let fs := ctFindCalendarSection dom st
    match fs.1 with
    | some _ =>
      let cbs := ctGetCalendarCheckboxes dom st
      if cbs.1.length > 0 then Except.ok ()
      else ctWaitForCalendarLoadGo dom st (elapsed + fs.2 + cbs.2 + 1000)
    | none => ctWaitForCalendarLoadGo dom st (elapsed + fs.2 + 1000)
  else Except.error ((dom.renderedAt st.scrollTop).length, elapsed)
termination_by 30000 - elapsed
decreasing_by
  all_goals omega

/-- `ctWaitForCalendarLoad`: the poll loop started at elapsed time 0. -/
def ctWaitForCalendarLoad (dom : Dom) (st : DomState) : Except (Nat × Nat) Unit :=
  ctWaitForCalendarLoadGo dom st 0

/-! ## Group application (`ctApplyCalendarGroup`, content.ts lines 487-566) -/

/-- The body of the first pass of `ctApplyCalendarGroup` for one snapshot
entry: activate a group member that is unchecked; deactivate (when
`disableOthers`) a non-member that is checked; otherwise leave the state
alone. -/
def ctApplyRenderedStep (calendars : List String) (disableOthers : Bool)
    (cb : CalendarCheckbox) (st : DomState) : DomState :=
  let shouldBeChecked := calendars.contains cb.label
  if shouldBeChecked && !cb.checked then ctToggleCheckbox st cb.idx true
  else if !shouldBeChecked && cb.checked && disableOthers then
    ctToggleCheckbox st cb.idx false
  else st

/-- `processedCalendars.add(label)`: the processed set, modelled as a
duplicate-free list. -/
def ctProcessedAdd (processed : List String) (l : String) : List String :=
  if processed.contains l then processed else processed ++ [l]

/-- The first pass of `ctApplyCalendarGroup`: walk the snapshot of
currently rendered, labelled checkboxes in document order, reconcile each,
and record every label seen as processed. -/
def ctApplyRenderedLoop (calendars : List String) (disableOthers : Bool) :
    List CalendarCheckbox → DomState → List String → DomState × List String
  | [], st, processed => (st, processed)
  | cb :: rest, st, processed =>
    ctApplyRenderedLoop calendars disableOthers rest
      (ctApplyRenderedStep calendars disableOthers cb st)
      (ctProcessedAdd processed cb.label)

/-- The second pass of `ctApplyCalendarGroup`: for each group label not yet
processed, run the scroll search; on success activate the found checkbox
when unchecked and mark the label processed. -/
def ctApplyScrollLoop (dom : Dom) :
    List String → DomState → List String → DomState × List String
  | [], st, processed => (st, processed)
  | lbl :: rest, st, processed =>
    let r := ctFindAndScrollToCheckbox dom st lbl
    match r.1 with
    | some i =>
      let stFound := r.2.1
      let st2 :=
        if !(stFound.checked.getD i false) then ctToggleCheckbox stFound i true
        else stFound
      ctApplyScrollLoop dom rest st2 (ctProcessedAdd processed lbl)
    | none => ctApplyScrollLoop dom rest r.2.1 processed

/-- `ctApplyCalendarGroup`: snapshot the rendered checkboxes; abort when
the snapshot is empty; otherwise reconcile the snapshot, then scroll-search
the still-unprocessed group labels.  (The logged summary of the source has
no effect on the DOM and is not modelled.) -/
def ctApplyCalendarGroup (dom : Dom) (group : CalendarGroup)
    (disableOthers : Bool) (st : DomState) : DomState :=
  let initialCheckboxes := (ctGetCalendarCheckboxes dom st).1
  if initialCheckboxes.length = 0 then st
  else
    let p1 := ctApplyRenderedLoop group.calendars disableOthers initialCheckboxes st []
    let unprocessed := group.calendars.filter (fun c => !(p1.2.contains c))
    (ctApplyScrollLoop dom unprocessed p1.1 p1.2).1

/-- `ctGetCurrentlySelectedCalendars` (content.ts lines 572-577): the
labels of the currently checked entries of the collector snapshot. -/
def ctGetCurrentlySelectedCalendars (dom : Dom) (st : DomState) : List String :=
  (((ctGetCalendarCheckboxes dom st).1.filter (fun cb => cb.checked)).map
    (fun cb => cb.label))

/-! ## Exception-aware re-embedding of the discovery layer

To settle the claim that the discovery-layer operations never throw, the
three functions are transcribed a second time into the `Except String`
monad, with every source-level return site wrapped in `Except.ok`.  A
`throw` in the source would surface as an `Except.error` constructor; none
occurs, which the agreement theorems make precise. -/

/-- Monadic transcription of strategy 1 of the resolver. -/
def ctLabelFromLabelledByE (byId : String → Option String) (cb : CbElem) :
    Except String (Option String) :=
  match cb.ariaLabelledBy with
  | none => Except.ok none
  | some idref =>
    if idref != "" then
      match byId idref with
      | none => Except.ok none
      | some txt =>
        let t := jsTrim txt
        if t != "" then Except.ok (some t) else Except.ok none
    else Except.ok none

/-- Monadic transcription of strategy 3 of the resolver. -/
def ctLabelFromContainerE (cb : CbElem) : Except String (Option String) :=
  match cb.container with
  | some (some le) =>
    if jsTruthy le.ariaLabel then Except.ok le.ariaLabel
    else
      let t := jsTrim le.textContent
      if t != "" && t.length > 0 && !(containsSub t checkboxWord) then
        Except.ok (some t)
      else Except.ok none
  | some none => Except.ok none
  | none => Except.ok none

/-- Monadic transcription of strategy 4 of the resolver. -/
def ctAncestorTextScanE : List String → Nat → Except String (Option String)
  | _, 0 => Except.ok none
  | [], _ => Except.ok none
  | txt :: rest, n + 1 =>
    let t := jsTrim txt
    if t != "" && t.length > 0 && t.length < 100 then
      let w := jsTrim (stripCheckboxCI t)
      if w.length > 0 then Except.ok (some w) else ctAncestorTextScanE rest n
    else ctAncestorTextScanE rest n

/-- Monadic transcription of `ctGetCalendarLabel`: every return site of the
source is an `Except.ok`; no code path throws. -/
def ctGetCalendarLabelE (byId : String → Option String) (cb : CbElem) :
    Except String (Option String) := do
  let s1 ← ctLabelFromLabelledByE byId cb
  match s1 with
  | some r => Except.ok (some r)
  | none =>
    if jsTruthy cb.ariaLabel then Except.ok cb.ariaLabel
    else do
      let s3 ← ctLabelFromContainerE cb
      match s3 with
      | some r => Except.ok (some r)
      | none =>
        do
          let s4 ← ctAncestorTextScanE cb.ancestorTexts 3
          match s4 with
          | some r => Except.ok (some r)
          | none =>
            let d := jsOr (jsOr cb.dataName cb.dataCalendarName) cb.dataLabel
            if jsTruthy d then Except.ok d else Except.ok none

/-- Monadic transcription of the section-locator retry loop. -/
def ctFindCalendarSectionGoE (dom : Dom) (st : DomState) :
    Nat → Except String (Option Unit × Nat)
  | 0 => Except.ok (none, 0)
  | n + 1 =>
    match ctTryFindSectionOnce dom st.scrollTop with
    | some s => Except.ok (some s, 0)
    | none => do
      let r ← ctFindCalendarSectionGoE dom st n
      Except.ok (r.1, 500 + r.2)

/-- Monadic transcription of `ctFindCalendarSection`. -/
def ctFindCalendarSectionE (dom : Dom) (st : DomState) :
    Except String (Option Unit × Nat) :=
  ctFindCalendarSectionGoE dom st 10

/-- Monadic transcription of the downward sweep. -/
def ctScrollDownE (dom : Dom) (d : Drawer) (label : String) :
    Nat → Nat → Nat → Except String (Option Nat × Nat × Nat)
  | _, top, 0 => Except.ok (none, top, 0)
  | cur, _, fuel + 1 =>
    let cur2 := cur + 200
    let top2 := min cur2 (maxScrollOf d)
    match ctFindCheckboxByLabel dom top2 label with
    | some i => Except.ok (some i, top2, 1)
    | none =>
      if top2 ≥ maxScrollOf d then Except.ok (none, top2, 1)
      else do
        let r ← ctScrollDownE dom d label cur2 top2 fuel
        Except.ok (r.1, r.2.1, r.2.2 + 1)

/-- Monadic transcription of the upward sweep. -/
def ctScrollUpE (dom : Dom) (d : Drawer) (label : String) :
    Nat → Nat → Except String (Option Nat × Nat × Nat)
  | top, 0 => Except.ok (none, top, 0)
  | cur, fuel + 1 =>
    let cur2 := cur - 200
    let top2 := min cur2 (maxScrollOf d)
    match ctFindCheckboxByLabel dom top2 label with
    | some i => Except.ok (some i, top2, 1)
    | none =>
      if cur2 ≤ 0 then Except.ok (none, top2, 1)
      else do
        let r ← ctScrollUpE dom d label cur2 fuel
        Except.ok (r.1, r.2.1, r.2.2 + 1)

/-- Monadic transcription of `ctFindAndScrollToCheckbox`. -/
def ctFindAndScrollToCheckboxE (dom : Dom) (st : DomState) (label : String) :
    Except String (Option Nat × DomState × Nat × Nat) :=
  match ctFindCheckboxByLabel dom st.scrollTop label with
  | some i => Except.ok (some i, st, 0, 0)
  | none =>
    match dom.drawer with
    | none => Except.ok (none, st, 0, 0)
    | some d => do
      let down ← ctScrollDownE dom d label st.scrollTop st.scrollTop 10
      match down.1 with
      | some i => Except.ok (some i, { st with scrollTop := down.2.1 }, down.2.2, 0)
      | none => do
        let up ← ctScrollUpE dom d label down.2.1 10
        Except.ok (up.1, { st with scrollTop := up.2.1 }, down.2.2, up.2.2)

/-! ## Specification-side description of the collector

`calendarCheckboxesSpec` is written from the words of the specification
(section 4.3): if the locator reports not-found, the empty sequence;
otherwise, in document order, exactly the toggles inside the located
section whose label resolves to non-null, each paired with its resolved
label and current checked state.  The claim about `ctGetCalendarCheckboxes`
is settled by comparing the two definitions. -/
def calendarCheckboxesSpec (dom : Dom) (st : DomState) : List CalendarCheckbox :=
  match (ctFindCalendarSection dom st).1 with
  | none => []
  | some _ =>
    (ctSectionCheckboxIds dom st.scrollTop).filterMap (fun i =>
      (dom.elems[i]?).bind (fun e =>
        (ctGetCalendarLabel dom.byId e).map (fun l =>
          ⟨i, l, st.checked.getD i false⟩)))

/-! ## Proof-support definition -/

/-- The checked state the first pass of `ctApplyCalendarGroup` leaves a
snapshot entry in: group members end checked; non-members end unchecked
when `disableOthers`, and keep their snapshot state otherwise. -/
def phase1Target (calendars : List String) (disableOthers : Bool)
    (cb : CalendarCheckbox) : Bool :=
  if calendars.contains cb.label then true
  else if disableOthers then false
  else cb.checked

/-! ## Concrete instances used by the counterexamples and witnesses -/

/-- A document with no element reachable by `getElementById`. -/
def emptyById : String → Option String := fun _ => none

/-- Two checkboxes labelled (via `aria-label`) "A" and "B"; only the first
lies inside the located calendar section. -/
def cxElemA1 : CbElem := ⟨none, some "A", none, [], none, none, none, false, [], true⟩

/-- The out-of-section checkbox labelled "B". -/
def cxElemB1 : CbElem := ⟨none, some "B", none, [], none, none, none, false, [], false⟩

/-- Page for the first counterexample: both checkboxes always rendered, a
selector hit with one checkbox descendant, no drawer. -/
def cxDom1 : Dom := ⟨emptyById, [some ⟨1⟩], [cxElemA1, cxElemB1], fun _ => [0, 1], none⟩

/-- Group for the first counterexample: only "A" is a member. -/
def cxGroup1 : CalendarGroup := ⟨"g1", "Group1", ["A"], 0, 0⟩

/-- Start state for the first counterexample: "A" unchecked, "B" checked. -/
def cxSt1 : DomState := ⟨[false, true], 0, 0⟩

/-- A checkbox whose resolved label " A" carries a leading space. -/
def cxElemSp2 : CbElem := ⟨none, some " A", none, [], none, none, none, false, [], true⟩

/-- Page for the idempotence counterexample: one in-section checkbox whose
label trims to a group entry without being equal to it. -/
def cxDom2 : Dom := ⟨emptyById, [some ⟨1⟩], [cxElemSp2], fun _ => [0], none⟩

/-- Group for the idempotence counterexample. -/
def cxGroup2 : CalendarGroup := ⟨"g2", "Group2", ["A"], 0, 0⟩

/-- Start state for the idempotence counterexample. -/
def cxSt2 : DomState := ⟨[false], 0, 0⟩

/-- A checkbox whose resolved label " A" carries a leading space (frame
counterexample copy). -/
def cxElemSp3 : CbElem := ⟨none, some " A", none, [], none, none, none, false, [], true⟩

/-- Page for the frame-effect counterexample. -/
def cxDom3 : Dom := ⟨emptyById, [some ⟨1⟩], [cxElemSp3], fun _ => [0], none⟩

/-- Group for the frame-effect counterexample. -/
def cxGroup3 : CalendarGroup := ⟨"g3", "Group3", ["A"], 0, 0⟩

/-- Start state for the frame-effect counterexample. -/
def cxSt3 : DomState := ⟨[false], 0, 0⟩

/-- Document map for the label-precedence counterexample: the referenced
element exists but its text is all whitespace. -/
def cxById5 : String → Option String := fun s => if s = "x" then some " " else none

/-- Checkbox carrying both an `aria-labelledby` reference and a direct
`aria-label`. -/
def cxElem5 : CbElem := ⟨some "x", some "X", none, [], none, none, none, false, [], true⟩

/-- Checkbox whose container text contains the word "checkbox" as part of
a longer phrase, with no other label source. -/
def cxElem6 : CbElem :=
  ⟨none, none, some (some ⟨none, "team checkbox"⟩), [], none, none, none, false, [], true⟩

/-- Witness page: one in-section checkbox labelled "A", constant
rendering, a selector hit, no drawer. -/
def witElem1 : CbElem := ⟨none, some "A", none, [], none, none, none, false, [], true⟩

/-- Witness page for the reconciliation claims. -/
def witDom1 : Dom := ⟨emptyById, [some ⟨1⟩], [witElem1], fun _ => [0], none⟩

/-- Witness group: "A" is the only member. -/
def witGroup1 : CalendarGroup := ⟨"gw", "GroupW", ["A"], 0, 0⟩

/-- Witness start state: the checkbox unchecked. -/
def witSt1 : DomState := ⟨[false], 0, 0⟩

/-- Witness page for the idempotence claim (its own copy). -/
def witElem2 : CbElem := ⟨none, some "A", none, [], none, none, none, false, [], true⟩

/-- Witness page for the idempotence claim. -/
def witDom2 : Dom := ⟨emptyById, [some ⟨1⟩], [witElem2], fun _ => [0], none⟩

/-- Witness group for the idempotence claim. -/
def witGroup2 : CalendarGroup := ⟨"gw2", "GroupW2", ["A"], 0, 0⟩

/-- Witness start state for the idempotence claim. -/
def witSt2 : DomState := ⟨[false], 0, 0⟩

/-- Witness checkbox for the frame-effect claim: labelled "B", checked,
outside the group. -/
def witElem3 : CbElem := ⟨none, some "B", none, [], none, none, none, false, [], true⟩

/-- Witness page for the frame-effect claim. -/
def witDom3 : Dom := ⟨emptyById, [some ⟨1⟩], [witElem3], fun _ => [0], none⟩

/-- Witness group for the frame-effect claim. -/
def witGroup3 : CalendarGroup := ⟨"gw3", "GroupW3", ["A"], 0, 0⟩

/-- Witness start state for the frame-effect claim: the checkbox checked. -/
def witSt3 : DomState := ⟨[true], 0, 0⟩

/-- Witness document map for the precedence claim: the referenced element
has the text " Name ". -/
def witById5 : String → Option String := fun s => if s = "id1" then some " Name " else none

/-- Witness checkbox carrying both label sources, the indirect one
resolving to non-empty text. -/
def witElem5 : CbElem := ⟨some "id1", some "Z", none, [], none, none, none, false, [], true⟩

/-- Witness checkbox for the container-text claim: container text " Team ",
no attributes anywhere else. -/
def witElem6 : CbElem :=
  ⟨none, none, some (some ⟨none, " Team "⟩), [], none, none, none, false, [], true⟩

/-- Witness page for the scroll-search termination claim: no checkboxes at
any scroll offset, but a drawer, so both sweeps actually run. -/
def witDom7 : Dom := ⟨emptyById, [], [], fun _ => [], some ⟨5000, 100⟩⟩

/-- Witness start state for the scroll-search termination claim. -/
def witSt7 : DomState := ⟨[], 0, 0⟩

/-- Witness page for the load-gate claim: a selector hit whose candidate
contains zero checkboxes, and no checkbox ever rendered. -/
def witDom8 : Dom := ⟨emptyById, [some ⟨0⟩], [], fun _ => [], none⟩

/-- Witness start state for the load-gate claim. -/
def witSt8 : DomState := ⟨[], 0, 0⟩

/-- Witness checkbox for the non-empty-label claim: `aria-label` "X". -/
def witElem10 : CbElem := ⟨none, some "X", none, [], none, none, none, false, [], true⟩

/-! ## Helper lemmas -/

/-- Reading a just-written entry of a checked vector. -/
theorem listGetDSetSelf (l : List Bool) (i : Nat) (b : Bool) (h : i < l.length) :
    (l.set i b).getD i false = b := by
  simp [List.getD, List.getElem?_set_self, h]

/-- Writing one entry of a checked vector leaves the others unchanged. -/
theorem listGetDSetNe (l : List Bool) (i j : Nat) (b : Bool) (h : j ≠ i) :
    (l.set i b).getD j false = l.getD j false := by
  simp only [List.getD, List.get?_eq_getElem?]
  rw [List.getElem?_set_ne (Ne.symm h)]

/-- `List.contains` agrees with membership for strings. -/
theorem strContainsIffMem (l : List String) (a : String) :
    l.contains a = true ↔ a ∈ l := by
  simp [List.contains_iff_exists_mem_beq]

/-- A non-empty string has positive length. -/
theorem strNonemptyLength (s : String) (h : s ≠ "") : 0 < s.length := by
  cases s with
  | mk data =>
    cases data with
    | nil => exact absurd rfl h
    | cons c rest => simp [String.length]

/-- Boolean inequality test, unfolded. -/
theorem bneTrueOfNe (s t : String) (h : s ≠ t) : (s != t) = true :=
  bne_iff_ne.mpr h

/-! ## Lemmas about `ctToggleCheckbox` -/

/-- Toggling never moves the scroll offset. -/
theorem toggleScrollTop (st : DomState) (i : Nat) (b : Bool) :
    (ctToggleCheckbox st i b).scrollTop = st.scrollTop := by
  unfold ctToggleCheckbox
  split <;> rfl

/-- Toggling preserves the length of the checked vector. -/
theorem toggleLen (st : DomState) (i : Nat) (b : Bool) :
    (ctToggleCheckbox st i b).checked.length = st.checked.length := by
  unfold ctToggleCheckbox
  split <;> simp

/-- Toggling a valid index establishes the desired state. -/
theorem toggleSelf (st : DomState) (i : Nat) (b : Bool) (h : i < st.checked.length) :
    (ctToggleCheckbox st i b).checked.getD i false = b := by
  unfold ctToggleCheckbox
  split
  · rename_i hne
    show (st.checked.set i (!(st.checked.getD i false))).getD i false = b
    rw [listGetDSetSelf _ _ _ h]
    revert hne
    cases st.checked.getD i false <;> cases b <;> simp
  · rename_i hne
    simp at hne
    simpa [List.getD] using hne

/-- Toggling one index leaves the other indices unchanged. -/
theorem toggleOther (st : DomState) (i j : Nat) (b : Bool) (h : j ≠ i) :
    (ctToggleCheckbox st i b).checked.getD j false = st.checked.getD j false := by
  unfold ctToggleCheckbox
  split
  · exact listGetDSetNe _ _ _ _ h
  · rfl

/-- Toggling towards `true` never turns a checked entry off. -/
theorem toggleTrueMono (st : DomState) (i j : Nat)
    (h : st.checked.getD j false = true) :
    (ctToggleCheckbox st i true).checked.getD j false = true := by
  by_cases hij : j = i
  · subst hij
    unfold ctToggleCheckbox
    rw [h]
    simpa using h
  · rw [toggleOther st i j true hij]
    exact h

/-! ## Lemmas about the direct lookup -/

/-- The lookup loop fails exactly when no listed element resolves to a
trim-matching label. -/
theorem lookupGoNoneIff (dom : Dom) (label : String) (lst : List Nat) :
    ctFindCheckboxByLabelGo dom label lst = none ↔
    ∀ i ∈ lst, ∀ e, dom.elems[i]? = some e →
      ∀ l, ctGetCalendarLabel dom.byId e = some l → jsTrim l ≠ jsTrim label := by
  induction lst with
  | nil => simp [ctFindCheckboxByLabelGo]
  | cons i rest ih =>
    unfold ctFindCheckboxByLabelGo
    cases he : dom.elems[i]? with
    | none =>
      dsimp only
      rw [ih]
      constructor
      · intro h j hj e hje l hl
        rcases List.mem_cons.mp hj with hj | hj
        · subst hj
          rw [he] at hje
          exact absurd hje (by simp)
        · exact h j hj e hje l hl
      · intro h j hj e hje l hl
        exact h j (List.mem_cons_of_mem _ hj) e hje l hl
    | some e =>
      dsimp only
      cases hl : ctGetCalendarLabel dom.byId e with
      | none =>
        dsimp only
        rw [ih]
        constructor
        · intro h j hj e2 hje l2 hl2
          rcases List.mem_cons.mp hj with hj | hj
          · subst hj
            rw [he] at hje
            cases hje
            rw [hl] at hl2
            exact absurd hl2 (by simp)
          · exact h j hj e2 hje l2 hl2
        · intro h j hj e2 hje l2 hl2
          exact h j (List.mem_cons_of_mem _ hj) e2 hje l2 hl2
      | some l =>
        dsimp only
        by_cases htr : jsTrim l = jsTrim label
        · rw [if_pos htr]
          constructor
          · intro h
            exact absurd h (by simp)
          · intro h
            exact absurd htr (h i (List.mem_cons_self i rest) e he l hl)
        · rw [if_neg htr, ih]
          constructor
          · intro h j hj e2 hje l2 hl2
            rcases List.mem_cons.mp hj with hj | hj
            · subst hj
              rw [he] at hje
              cases hje
              rw [hl] at hl2
              cases hl2
              exact htr
            · exact h j hj e2 hje l2 hl2
          · intro h j hj e2 hje l2 hl2
            exact h j (List.mem_cons_of_mem _ hj) e2 hje l2 hl2

/-- A successful lookup yields a listed element with a trim-matching
resolved label. -/
theorem lookupGoSome (dom : Dom) (label : String) (lst : List Nat) (i : Nat)
    (h : ctFindCheckboxByLabelGo dom label lst = some i) :
    i ∈ lst ∧ ∃ e l, dom.elems[i]? = some e ∧
      ctGetCalendarLabel dom.byId e = some l ∧ jsTrim l = jsTrim label := by
  induction lst with
  | nil => exact absurd h (by simp [ctFindCheckboxByLabelGo])
  | cons j rest ih =>
    unfold ctFindCheckboxByLabelGo at h
    cases he : dom.elems[j]? with
    | none =>
      rw [he] at h
      dsimp only at h
      rcases ih h with ⟨hm, hrest⟩
      exact ⟨List.mem_cons_of_mem _ hm, hrest⟩
    | some e =>
      rw [he] at h
      dsimp only at h
      cases hl : ctGetCalendarLabel dom.byId e with
      | none =>
        rw [hl] at h
        dsimp only at h
        rcases ih h with ⟨hm, hrest⟩
        exact ⟨List.mem_cons_of_mem _ hm, hrest⟩
      | some l =>
        rw [hl] at h
        dsimp only at h
        by_cases htr : jsTrim l = jsTrim label
        · rw [if_pos htr] at h
          injection h with h2
          subst h2
          exact ⟨List.mem_cons_self _ _, e, l, he, hl, htr⟩
        · rw [if_neg htr] at h
          rcases ih h with ⟨hm, hrest⟩
          exact ⟨List.mem_cons_of_mem _ hm, hrest⟩

/-- Under scroll-independent rendering, the lookup result does not depend
on the scroll offset. -/
theorem lookupConst (dom : Dom) (label : String)
    (hconst : ∀ p q, dom.renderedAt p = dom.renderedAt q) (p q : Nat) :
    ctFindCheckboxByLabel dom p label = ctFindCheckboxByLabel dom q label := by
  unfold ctFindCheckboxByLabel
  rw [hconst p q]

/-! ## Lemmas about the scroll search -/

/-- When the label is nowhere findable, the downward sweep fails and takes
at most `fuel` steps. -/
theorem scrollDownNone (dom : Dom) (d : Drawer) (label : String)
    (h : ∀ p, ctFindCheckboxByLabel dom p label = none) :
    ∀ fuel cur top, (ctScrollDown dom d label cur top fuel).1 = none ∧
      (ctScrollDown dom d label cur top fuel).2.2 ≤ fuel := by
  intro fuel
  induction fuel with
  | zero => intro cur top; exact ⟨rfl, Nat.le_refl 0⟩
  | succ n ih =>
    intro cur top
    unfold ctScrollDown
    dsimp only
    rw [h]
    dsimp only
    split
    · exact ⟨rfl, by dsimp only; omega⟩
    · rcases ih (cur + 200) (min (cur + 200) (maxScrollOf d)) with ⟨h1, h2⟩
      exact ⟨h1, by dsimp only; omega⟩

/-- When the label is nowhere findable, the upward sweep fails and takes
at most `fuel` steps. -/
theorem scrollUpNone (dom : Dom) (d : Drawer) (label : String)
    (h : ∀ p, ctFindCheckboxByLabel dom p label = none) :
    ∀ fuel cur, (ctScrollUp dom d label cur fuel).1 = none ∧
      (ctScrollUp dom d label cur fuel).2.2 ≤ fuel := by
  intro fuel
  induction fuel with
  | zero => intro cur; exact ⟨rfl, Nat.le_refl 0⟩
  | succ n ih =>
    intro cur
    unfold ctScrollUp
    dsimp only
    rw [h]
    dsimp only
    split
    · exact ⟨rfl, by dsimp only; omega⟩
    · rcases ih (cur - 200) with ⟨h1, h2⟩
      exact ⟨h1, by dsimp only; omega⟩

/-- A successful downward sweep step comes from a successful lookup at
some scroll offset. -/
theorem scrollDownSome (dom : Dom) (d : Drawer) (label : String) (i : Nat) :
    ∀ fuel cur top, (ctScrollDown dom d label cur top fuel).1 = some i →
      ∃ p, ctFindCheckboxByLabel dom p label = some i := by
  intro fuel
  induction fuel with
  | zero => intro cur top h; exact absurd h (by simp [ctScrollDown])
  | succ n ih =>
    intro cur top h
    unfold ctScrollDown at h
    dsimp only at h
    cases hl : ctFindCheckboxByLabel dom (min (cur + 200) (maxScrollOf d)) label with
    | some j =>
      rw [hl] at h
      dsimp only at h
      injection h with h2
      subst h2
      exact ⟨min (cur + 200) (maxScrollOf d), hl⟩
    | none =>
      rw [hl] at h
      dsimp only at h
      split at h
      · exact absurd h (by simp)
      · exact ih (cur + 200) (min (cur + 200) (maxScrollOf d)) h

/-- A successful upward sweep step comes from a successful lookup at some
scroll offset. -/
theorem scrollUpSome (dom : Dom) (d : Drawer) (label : String) (i : Nat) :
    ∀ fuel cur, (ctScrollUp dom d label cur fuel).1 = some i →
      ∃ p, ctFindCheckboxByLabel dom p label = some i := by
  intro fuel
  induction fuel with
  | zero => intro cur h; exact absurd h (by simp [ctScrollUp])
  | succ n ih =>
    intro cur h
    unfold ctScrollUp at h
    dsimp only at h
    cases hl : ctFindCheckboxByLabel dom (min (cur - 200) (maxScrollOf d)) label with
    | some j =>
      rw [hl] at h
      dsimp only at h
      injection h with h2
      subst h2
      exact ⟨min (cur - 200) (maxScrollOf d), hl⟩
    | none =>
      rw [hl] at h
      dsimp only at h
      split at h
      · exact absurd h (by simp)
      · exact ih (cur - 200) h

/-- The scroll search only moves the scroll offset: the checked vector and
the click counter come through unchanged. -/
theorem findScrollState (dom : Dom) (st : DomState) (label : String) :
    (ctFindAndScrollToCheckbox dom st label).2.1.checked = st.checked ∧
    (ctFindAndScrollToCheckbox dom st label).2.1.clicks = st.clicks := by
  unfold ctFindAndScrollToCheckbox
  split
  · exact ⟨rfl, rfl⟩
  · split
    · exact ⟨rfl, rfl⟩
    · dsimp only
      split
      · exact ⟨rfl, rfl⟩
      · exact ⟨rfl, rfl⟩

/-- When the label is nowhere findable, the scroll search returns
not-found, leaves the checked vector and click counter unchanged, and each
sweep performs at most 10 steps. -/
theorem findScrollNone (dom : Dom) (st : DomState) (label : String)
    (h : ∀ p, ctFindCheckboxByLabel dom p label = none) :
    (ctFindAndScrollToCheckbox dom st label).1 = none ∧
    (ctFindAndScrollToCheckbox dom st label).2.1.checked = st.checked ∧
    (ctFindAndScrollToCheckbox dom st label).2.1.clicks = st.clicks ∧
    (ctFindAndScrollToCheckbox dom st label).2.2.1 ≤ 10 ∧
    (ctFindAndScrollToCheckbox dom st label).2.2.2 ≤ 10 := by
  unfold ctFindAndScrollToCheckbox
  rw [h st.scrollTop]
  dsimp only
  cases dom.drawer with
  | none =>
    dsimp only
    exact ⟨rfl, rfl, rfl, by omega, by omega⟩
  | some d =>
    dsimp only
    rcases scrollDownNone dom d label h 10 st.scrollTop st.scrollTop with ⟨hd1, hd2⟩
    rw [hd1]
    dsimp only
    rcases scrollUpNone dom d label h 10
        (ctScrollDown dom d label st.scrollTop st.scrollTop 10).2.1 with ⟨hu1, hu2⟩
    rw [hu1]
    exact ⟨rfl, rfl, rfl, hd2, hu2⟩

/-- A successful scroll search comes from a successful direct lookup at
some scroll offset. -/
theorem findScrollSome (dom : Dom) (st : DomState) (label : String) (i : Nat)
    (h : (ctFindAndScrollToCheckbox dom st label).1 = some i) :
    ∃ p, ctFindCheckboxByLabel dom p label = some i := by
  unfold ctFindAndScrollToCheckbox at h
  cases hl : ctFindCheckboxByLabel dom st.scrollTop label with
  | some j =>
    rw [hl] at h
    dsimp only at h
    injection h with h2
    subst h2
    exact ⟨st.scrollTop, hl⟩
  | none =>
    rw [hl] at h
    dsimp only at h
    cases hdr : dom.drawer with
    | none =>
      rw [hdr] at h
      exact absurd h (by simp)
    | some d =>
      rw [hdr] at h
      dsimp only at h
      cases hdown : (ctScrollDown dom d label st.scrollTop st.scrollTop 10).1 with
      | some j =>
        rw [hdown] at h
        dsimp only at h
        injection h with h2
        subst h2
        exact scrollDownSome dom d label _ 10 st.scrollTop st.scrollTop hdown
      | none =>
        rw [hdown] at h
        dsimp only at h
        exact scrollUpSome dom d label _ 10 _ h

/-- A successful direct lookup short-circuits the scroll search: the state
comes back untouched. -/
theorem findScrollDirect (dom : Dom) (st : DomState) (label : String) (i : Nat)
    (h : ctFindCheckboxByLabel dom st.scrollTop label = some i) :
    ctFindAndScrollToCheckbox dom st label = (some i, st, 0, 0) := by
  unfold ctFindAndScrollToCheckbox
  rw [h]

/-! ## Lemmas about the collector -/

/-- Every collected entry is a listed element whose label resolved to the
recorded value, with the checked flag read from the current state. -/
theorem collectLoopMem (dom : Dom) (checked : List Bool) (lst : List Nat)
    (cb : CalendarCheckbox) (h : cb ∈ ctCollectLoop dom checked lst) :
    cb.idx ∈ lst ∧ ∃ e, dom.elems[cb.idx]? = some e ∧
      ctGetCalendarLabel dom.byId e = some cb.label ∧
      cb.checked = checked.getD cb.idx false := by
  induction lst with
  | nil => simp [ctCollectLoop] at h
  | cons i rest ih =>
    unfold ctCollectLoop at h
    cases he : dom.elems[i]? with
    | none =>
      rw [he] at h
      dsimp only at h
      rcases ih h with ⟨hm, hrest⟩
      exact ⟨List.mem_cons_of_mem _ hm, hrest⟩
    | some e =>
      rw [he] at h
      dsimp only at h
      cases hl : ctGetCalendarLabel dom.byId e with
      | none =>
        rw [hl] at h
        dsimp only at h
        rcases ih h with ⟨hm, hrest⟩
        exact ⟨List.mem_cons_of_mem _ hm, hrest⟩
      | some l =>
        rw [hl] at h
        dsimp only at h
        rcases List.mem_cons.mp h with h | h
        · subst h
          exact ⟨List.mem_cons_self _ _, e, he, hl, rfl⟩
        · rcases ih h with ⟨hm, hrest⟩
          exact ⟨List.mem_cons_of_mem _ hm, hrest⟩

/-- Every listed element with a resolvable label appears in the collected
list. -/
theorem collectLoopComplete (dom : Dom) (checked : List Bool) :
    ∀ (lst : List Nat) (i : Nat) (e : CbElem) (l : String),
    i ∈ lst → dom.elems[i]? = some e → ctGetCalendarLabel dom.byId e = some l →
    (⟨i, l, checked.getD i false⟩ : CalendarCheckbox) ∈ ctCollectLoop dom checked lst := by
  intro lst
  induction lst with
  | nil => intro i e l hi _ _; simp at hi
  | cons j rest ih =>
    intro i e l hi he hl
    unfold ctCollectLoop
    rcases List.mem_cons.mp hi with hi | hi
    · subst hi
      rw [he]
      dsimp only
      rw [hl]
      dsimp only
      exact List.mem_cons_self _ _
    · cases he2 : dom.elems[j]? with
      | none =>
        dsimp only
        exact ih i e l hi he hl
      | some e2 =>
        dsimp only
        cases hl2 : ctGetCalendarLabel dom.byId e2 with
        | none =>
          dsimp only
          exact ih i e l hi he hl
        | some l2 =>
          dsimp only
          exact List.mem_cons_of_mem _ (ih i e l hi he hl)

/-- The collected indices form a sublist of the scanned index list. -/
theorem collectLoopIdxSublist (dom : Dom) (checked : List Bool) :
    ∀ lst : List Nat,
    ((ctCollectLoop dom checked lst).map (fun cb => cb.idx)).Sublist lst := by
  intro lst
  induction lst with
  | nil => simp [ctCollectLoop]
  | cons i rest ih =>
    unfold ctCollectLoop
    cases dom.elems[i]? with
    | none =>
      dsimp only
      exact List.Sublist.cons _ ih
    | some e =>
      dsimp only
      cases ctGetCalendarLabel dom.byId e with
      | none =>
        dsimp only
        exact List.Sublist.cons _ ih
      | some l =>
        dsimp only
        simp only [List.map_cons]
        exact List.Sublist.cons₂ _ ih

/-- The (index, label) skeleton of the collected list does not depend on
the checked vector. -/
theorem collectLoopSkeleton (dom : Dom) (ch1 ch2 : List Bool) :
    ∀ lst : List Nat,
    (ctCollectLoop dom ch1 lst).map (fun cb => (cb.idx, cb.label)) =
    (ctCollectLoop dom ch2 lst).map (fun cb => (cb.idx, cb.label)) := by
  intro lst
  induction lst with
  | nil => rfl
  | cons i rest ih =>
    unfold ctCollectLoop
    cases dom.elems[i]? with
    | none => exact ih
    | some e =>
      dsimp only
      cases ctGetCalendarLabel dom.byId e with
      | none => exact ih
      | some l =>
        dsimp only
        simp only [List.map_cons]
        rw [ih]

/-! ## Lemmas about the first reconciliation pass -/

/-- The reconciliation step never moves the scroll offset. -/
theorem renderedStepScrollTop (calendars : List String) (dO : Bool)
    (cb : CalendarCheckbox) (st : DomState) :
    (ctApplyRenderedStep calendars dO cb st).scrollTop = st.scrollTop := by
  unfold ctApplyRenderedStep
  dsimp only
  split
  · exact toggleScrollTop st cb.idx true
  · split
    · exact toggleScrollTop st cb.idx false
    · rfl

/-- The reconciliation step preserves the length of the checked vector. -/
theorem renderedStepLen (calendars : List String) (dO : Bool)
    (cb : CalendarCheckbox) (st : DomState) :
    (ctApplyRenderedStep calendars dO cb st).checked.length = st.checked.length := by
  unfold ctApplyRenderedStep
  dsimp only
  split
  · exact toggleLen st cb.idx true
  · split
    · exact toggleLen st cb.idx false
    · rfl

/-- The reconciliation step leaves the entries of the other elements
unchanged. -/
theorem renderedStepOther (calendars : List String) (dO : Bool)
    (cb : CalendarCheckbox) (st : DomState) (j : Nat) (hj : j ≠ cb.idx) :
    (ctApplyRenderedStep calendars dO cb st).checked.getD j false =
      st.checked.getD j false := by
  unfold ctApplyRenderedStep
  dsimp only
  split
  · exact toggleOther st cb.idx j true hj
  · split
    · exact toggleOther st cb.idx j false hj
    · rfl

/-- The reconciliation step drives a consistent snapshot entry to its
target state. -/
theorem renderedStepSelf (calendars : List String) (dO : Bool)
    (cb : CalendarCheckbox) (st : DomState)
    (hb : cb.idx < st.checked.length)
    (hcons : cb.checked = st.checked.getD cb.idx false) :
    (ctApplyRenderedStep calendars dO cb st).checked.getD cb.idx false =
      phase1Target calendars dO cb := by
  unfold ctApplyRenderedStep phase1Target
  dsimp only
  cases hm : calendars.contains cb.label <;> cases hc : cb.checked <;> cases dO <;>
    simp [hm, hc] <;>
    rw [← List.getD_eq_getElem?_getD] <;>
    first
      | exact hcons.symm.trans hc
      | exact toggleSelf st cb.idx true hb
      | exact toggleSelf st cb.idx false hb

/-- On a state where no snapshot entry calls for an activation, the first
pass returns the state unchanged (click counter included). -/
theorem phase1NoAction (calendars : List String) (dO : Bool) :
    ∀ (cbs : List CalendarCheckbox) (st : DomState) (proc : List String),
    (∀ cb ∈ cbs,
      ¬(calendars.contains cb.label = true ∧ cb.checked = false) ∧
      ¬(calendars.contains cb.label = false ∧ cb.checked = true ∧ dO = true)) →
    (ctApplyRenderedLoop calendars dO cbs st proc).1 = st := by
  intro cbs
  induction cbs with
  | nil => intro st proc _; rfl
  | cons cb rest ih =>
    intro st proc h
    have hcb := h cb (List.mem_cons_self _ _)
    have hstep : ctApplyRenderedStep calendars dO cb st = st := by
      unfold ctApplyRenderedStep
      dsimp only
      rcases hcb with ⟨h1, h2⟩
      cases hm : calendars.contains cb.label <;> cases hc : cb.checked <;>
        cases hdO : dO <;> simp_all
    unfold ctApplyRenderedLoop
    rw [hstep]
    exact ih st (ctProcessedAdd proc cb.label)
      (fun cb2 hm2 => h cb2 (List.mem_cons_of_mem _ hm2))

/-- Membership in the processed set after an `add`. -/
theorem processedAddContains (proc : List String) (l0 l : String) :
    (ctProcessedAdd proc l0).contains l = true ↔
      (proc.contains l = true ∨ l = l0) := by
  unfold ctProcessedAdd
  by_cases h : proc.contains l0 = true
  · rw [if_pos h]
    constructor
    · exact fun hl => Or.inl hl
    · rintro (hl | rfl)
      · exact hl
      · exact h
  · rw [if_neg h]
    rw [strContainsIffMem, List.mem_append, List.mem_singleton]
    rw [strContainsIffMem]

/-- The full specification of the first pass: scroll offset and vector
length preserved, every snapshot entry at its target state, every other
index untouched, and the processed set extended by exactly the snapshot
labels. -/
theorem phase1Spec (calendars : List String) (dO : Bool) :
    ∀ (cbs : List CalendarCheckbox) (st : DomState) (proc : List String),
    (cbs.map (fun cb => cb.idx)).Nodup →
    (∀ cb ∈ cbs, cb.idx < st.checked.length) →
    (∀ cb ∈ cbs, cb.checked = st.checked.getD cb.idx false) →
    (ctApplyRenderedLoop calendars dO cbs st proc).1.scrollTop = st.scrollTop ∧
    (ctApplyRenderedLoop calendars dO cbs st proc).1.checked.length =
      st.checked.length ∧
    (∀ cb ∈ cbs,
      (ctApplyRenderedLoop calendars dO cbs st proc).1.checked.getD cb.idx false =
        phase1Target calendars dO cb) ∧
    (∀ j, j ∉ cbs.map (fun cb => cb.idx) →
      (ctApplyRenderedLoop calendars dO cbs st proc).1.checked.getD j false =
        st.checked.getD j false) ∧
    (∀ l, (ctApplyRenderedLoop calendars dO cbs st proc).2.contains l = true ↔
      (proc.contains l = true ∨ l ∈ cbs.map (fun cb => cb.label))) := by
  intro cbs
  induction cbs with
  | nil =>
    intro st proc _ _ _
    exact ⟨rfl, rfl, fun cb hm => absurd hm (by simp),
      fun j _ => rfl, fun l => by simp [ctApplyRenderedLoop]⟩
  | cons cb rest ih =>
    intro st proc hnd hbound hcons
    rw [List.map_cons, List.nodup_cons] at hnd
    have hndRest := hnd.2
    have hheadNotRest := hnd.1
    have hbcb : cb.idx < st.checked.length := hbound cb (List.mem_cons_self _ _)
    have hccb : cb.checked = st.checked.getD cb.idx false :=
      hcons cb (List.mem_cons_self _ _)
    have hstepLen := renderedStepLen calendars dO cb st
    have hstepTop := renderedStepScrollTop calendars dO cb st
    have hstepSelf := renderedStepSelf calendars dO cb st hbcb hccb
    have hboundRest : ∀ cb2 ∈ rest,
        cb2.idx < (ctApplyRenderedStep calendars dO cb st).checked.length := by
      intro cb2 hm2
      rw [hstepLen]
      exact hbound cb2 (List.mem_cons_of_mem _ hm2)
    have hconsRest : ∀ cb2 ∈ rest,
        cb2.checked =
          (ctApplyRenderedStep calendars dO cb st).checked.getD cb2.idx false := by
      intro cb2 hm2
      have hne : cb2.idx ≠ cb.idx := by
        intro he
        exact hheadNotRest (he ▸ List.mem_map_of_mem (fun cb => cb.idx) hm2)
      rw [renderedStepOther calendars dO cb st cb2.idx hne]
      exact hcons cb2 (List.mem_cons_of_mem _ hm2)
    rcases ih (ctApplyRenderedStep calendars dO cb st) (ctProcessedAdd proc cb.label)
        hndRest hboundRest hconsRest with ⟨ihTop, ihLen, ihSelf, ihOther, ihProc⟩
    unfold ctApplyRenderedLoop
    refine ⟨by rw [ihTop, hstepTop], by rw [ihLen, hstepLen], ?_, ?_, ?_⟩
    · intro cb2 hm2
      rcases List.mem_cons.mp hm2 with hm2 | hm2
      · subst hm2
        rw [ihOther cb2.idx hheadNotRest]
        exact hstepSelf
      · exact ihSelf cb2 hm2
    · intro j hj
      have hj1 : j ≠ cb.idx := by
        intro he
        exact hj (by simp [he])
      have hj2 : j ∉ rest.map (fun cb => cb.idx) := by
        intro he
        exact hj (by simp [he])
      rw [ihOther j hj2, renderedStepOther calendars dO cb st j hj1]
    · intro l
      rw [ihProc l, processedAddContains]
      simp only [List.map_cons, List.mem_cons]
      tauto

/-! ## Lemmas about the second (scroll-search) reconciliation pass -/

/-- The second pass preserves the length of the checked vector. -/
theorem phase2Len (dom : Dom) : ∀ (ls : List String) (st : DomState) (proc : List String),
    (ctApplyScrollLoop dom ls st proc).1.checked.length = st.checked.length := by
  intro ls
  induction ls with
  | nil => intro st proc; rfl
  | cons lbl rest ih =>
    intro st proc
    unfold ctApplyScrollLoop
    dsimp only
    have hpres := (findScrollState dom st lbl).1
    cases hr : (ctFindAndScrollToCheckbox dom st lbl).1 with
    | some i =>
      dsimp only
      rw [ih]
      split
      · rw [toggleLen, hpres]
      · rw [hpres]
    | none =>
      dsimp only
      rw [ih, hpres]

/-- The second pass never turns a checked entry off. -/
theorem phase2TrueMono (dom : Dom) :
    ∀ (ls : List String) (st : DomState) (proc : List String) (j : Nat),
    st.checked.getD j false = true →
    (ctApplyScrollLoop dom ls st proc).1.checked.getD j false = true := by
  intro ls
  induction ls with
  | nil => intro st proc j h; exact h
  | cons lbl rest ih =>
    intro st proc j h
    unfold ctApplyScrollLoop
    dsimp only
    have hpres := (findScrollState dom st lbl).1
    have hj : (ctFindAndScrollToCheckbox dom st lbl).2.1.checked.getD j false = true := by
      rw [hpres]; exact h
    cases hr : (ctFindAndScrollToCheckbox dom st lbl).1 with
    | some i =>
      dsimp only
      split
      · exact ih _ _ j (toggleTrueMono _ i j hj)
      · exact ih _ _ j hj
    | none =>
      dsimp only
      exact ih _ _ j hj

/-- When none of the labels is findable anywhere, the second pass touches
neither the checked vector nor the click counter. -/
theorem phase2NoFind (dom : Dom) :
    ∀ (ls : List String) (st : DomState) (proc : List String),
    (∀ l ∈ ls, ∀ p, ctFindCheckboxByLabel dom p l = none) →
    (ctApplyScrollLoop dom ls st proc).1.checked = st.checked ∧
    (ctApplyScrollLoop dom ls st proc).1.clicks = st.clicks := by
  intro ls
  induction ls with
  | nil => intro st proc _; exact ⟨rfl, rfl⟩
  | cons lbl rest ih =>
    intro st proc h
    unfold ctApplyScrollLoop
    dsimp only
    rcases findScrollNone dom st lbl (h lbl (List.mem_cons_self _ _)) with
      ⟨h1, h2, h3, _, _⟩
    rw [h1]
    dsimp only
    rcases ih (ctFindAndScrollToCheckbox dom st lbl).2.1 proc
        (fun l hm p => h l (List.mem_cons_of_mem _ hm) p) with ⟨ih1, ih2⟩
    exact ⟨ih1.trans h2, ih2.trans h3⟩

/-- Under scroll-independent rendering, an element that no searched label
can ever resolve to keeps its checked state through the second pass. -/
theorem phase2Untouched (dom : Dom)
    (hconst : ∀ p q, dom.renderedAt p = dom.renderedAt q) :
    ∀ (ls : List String) (st : DomState) (proc : List String) (j : Nat),
    (∀ l ∈ ls, ∀ p, ctFindCheckboxByLabel dom p l ≠ some j) →
    (ctApplyScrollLoop dom ls st proc).1.checked.getD j false =
      st.checked.getD j false := by
  intro ls
  induction ls with
  | nil => intro st proc j _; rfl
  | cons lbl rest ih =>
    intro st proc j h
    unfold ctApplyScrollLoop
    dsimp only
    cases hl : ctFindCheckboxByLabel dom st.scrollTop lbl with
    | some i =>
      rw [findScrollDirect dom st lbl i hl]
      dsimp only
      have hij : j ≠ i := by
        intro he
        exact h lbl (List.mem_cons_self _ _) st.scrollTop (he ▸ hl)
      rw [ih _ _ j (fun l hm p => h l (List.mem_cons_of_mem _ hm) p)]
      split
      · exact toggleOther st i j true hij
      · rfl
    | none =>
      have hall : ∀ p, ctFindCheckboxByLabel dom p lbl = none :=
        fun p => (lookupConst dom lbl hconst p st.scrollTop).trans hl
      rcases findScrollNone dom st lbl hall with ⟨h1, h2, _, _, _⟩
      rw [h1]
      dsimp only
      rw [ih _ _ j (fun l hm p => h l (List.mem_cons_of_mem _ hm) p), h2]

/-- Under scroll-independent rendering, the second pass leaves every found
element checked. -/
theorem phase2SetsHits (dom : Dom)
    (hconst : ∀ p q, dom.renderedAt p = dom.renderedAt q) :
    ∀ (ls : List String) (st : DomState) (proc : List String),
    ∀ l ∈ ls, ∀ i, ctFindCheckboxByLabel dom 0 l = some i →
    i < st.checked.length →
    (ctApplyScrollLoop dom ls st proc).1.checked.getD i false = true := by
  intro ls
  induction ls with
  | nil => intro st proc l hm; simp at hm
  | cons lbl rest ih =>
    intro st proc l hmem i hit hlen
    unfold ctApplyScrollLoop
    dsimp only
    rcases List.mem_cons.mp hmem with hmem | hmem
    · subst hmem
      have hl : ctFindCheckboxByLabel dom st.scrollTop l = some i :=
        (lookupConst dom l hconst st.scrollTop 0).trans hit
      rw [findScrollDirect dom st l i hl]
      dsimp only
      apply phase2TrueMono
      cases hchk : st.checked.getD i false with
      | false =>
        rw [if_pos (by rfl)]
        exact toggleSelf st i true hlen
      | true =>
        rw [if_neg (by simp)]
        exact hchk
    · cases hl : ctFindCheckboxByLabel dom st.scrollTop lbl with
      | some k =>
        rw [findScrollDirect dom st lbl k hl]
        dsimp only
        split
        · exact ih _ _ l hmem i hit (by rw [toggleLen]; exact hlen)
        · exact ih _ _ l hmem i hit hlen
      | none =>
        have hall : ∀ p, ctFindCheckboxByLabel dom p lbl = none :=
          fun p => (lookupConst dom lbl hconst p st.scrollTop).trans hl
        rcases findScrollNone dom st lbl hall with ⟨h1, h2, _, _, _⟩
        rw [h1]
        dsimp only
        exact ih _ _ l hmem i hit (by rw [h2]; exact hlen)

/-- Under scroll-independent rendering, when every found element is
already checked, the second pass performs no click at all. -/
theorem phase2NoClick (dom : Dom)
    (hconst : ∀ p q, dom.renderedAt p = dom.renderedAt q) :
    ∀ (ls : List String) (st : DomState) (proc : List String),
    (∀ l ∈ ls, ∀ i, ctFindCheckboxByLabel dom 0 l = some i →
      st.checked.getD i false = true) →
    (ctApplyScrollLoop dom ls st proc).1.checked = st.checked ∧
    (ctApplyScrollLoop dom ls st proc).1.clicks = st.clicks := by
  intro ls
  induction ls with
  | nil => intro st proc _; exact ⟨rfl, rfl⟩
  | cons lbl rest ih =>
    intro st proc h
    unfold ctApplyScrollLoop
    dsimp only
    cases hl : ctFindCheckboxByLabel dom st.scrollTop lbl with
    | some i =>
      have hit0 : ctFindCheckboxByLabel dom 0 lbl = some i :=
        (lookupConst dom lbl hconst 0 st.scrollTop).trans hl
      have hchk : st.checked.getD i false = true :=
        h lbl (List.mem_cons_self _ _) i hit0
      rw [findScrollDirect dom st lbl i hl]
      dsimp only
      rw [if_neg (by rw [hchk]; simp)]
      exact ih st _ (fun l hm i2 hit => h l (List.mem_cons_of_mem _ hm) i2 hit)
    | none =>
      have hall : ∀ p, ctFindCheckboxByLabel dom p lbl = none :=
        fun p => (lookupConst dom lbl hconst p st.scrollTop).trans hl
      rcases findScrollNone dom st lbl hall with ⟨h1, h2, h3, _, _⟩
      rw [h1]
      dsimp only
      rcases ih (ctFindAndScrollToCheckbox dom st lbl).2.1 proc
          (fun l hm i2 hit => by
            rw [h2]
            exact h l (List.mem_cons_of_mem _ hm) i2 hit) with ⟨ih1, ih2⟩
      exact ⟨ih1.trans h2, ih2.trans h3⟩

/-! ## Lemmas about the locator and the collector wrapper -/

/-- Under scroll-independent rendering, one locator round does not depend
on the scroll offset. -/
theorem tryOnceConst (dom : Dom)
    (hconst : ∀ p q, dom.renderedAt p = dom.renderedAt q) (p q : Nat) :
    ctTryFindSectionOnce dom p = ctTryFindSectionOnce dom q := by
  unfold ctTryFindSectionOnce
  rw [hconst p q]

/-- A successful first locator round makes `ctFindCalendarSection` succeed
immediately, with no time slept. -/
theorem findSectionSome (dom : Dom) (st : DomState) (u : Unit)
    (h : ctTryFindSectionOnce dom st.scrollTop = some u) :
    ctFindCalendarSection dom st = (some u, 0) := by
  unfold ctFindCalendarSection ctFindCalendarSectionGo
  rw [h]

/-- A permanently failing locator round makes the retry loop fail after
sleeping 500 ms per round. -/
theorem findSectionGoNone (dom : Dom) (st : DomState)
    (h : ctTryFindSectionOnce dom st.scrollTop = none) :
    ∀ n, ctFindCalendarSectionGo dom st n = (none, 500 * n) := by
  intro n
  induction n with
  | zero => rfl
  | succ m ih =>
    unfold ctFindCalendarSectionGo
    rw [h]
    dsimp only
    rw [ih]
    refine Prod.ext rfl ?_
    dsimp only
    omega

/-- When the first locator round succeeds, the collector walks the section
checkboxes of the current scroll offset. -/
theorem collectOfFound (dom : Dom) (st : DomState) (u : Unit)
    (h : ctTryFindSectionOnce dom st.scrollTop = some u) :
    (ctGetCalendarCheckboxes dom st).1 =
      ctCollectLoop dom st.checked (ctSectionCheckboxIds dom st.scrollTop) := by
  unfold ctGetCalendarCheckboxes
  rw [findSectionSome dom st u h]

/-- When the locator rounds always fail, the collector returns the empty
list. -/
theorem collectOfNotFound (dom : Dom) (st : DomState)
    (h : ctTryFindSectionOnce dom st.scrollTop = none) :
    (ctGetCalendarCheckboxes dom st).1 = [] := by
  unfold ctGetCalendarCheckboxes
  rw [show ctFindCalendarSection dom st = (none, 500 * 10) from
    findSectionGoNone dom st h 10]

/-- Membership of the section checkbox list, unfolded. -/
theorem sectionIdsMemOfRendered (dom : Dom) (p : Nat) (i : Nat) (e : CbElem)
    (hm : i ∈ dom.renderedAt p) (he : dom.elems[i]? = some e)
    (hins : e.inSection = true) :
    i ∈ ctSectionCheckboxIds dom p := by
  unfold ctSectionCheckboxIds
  refine List.mem_filter.mpr ⟨hm, ?_⟩
  rw [he]
  exact hins

/-- A section checkbox is a rendered checkbox. -/
theorem sectionIdsSubRendered (dom : Dom) (p : Nat) (i : Nat)
    (hm : i ∈ ctSectionCheckboxIds dom p) : i ∈ dom.renderedAt p := by
  unfold ctSectionCheckboxIds at hm
  exact (List.mem_filter.mp hm).1

/-- The section checkbox list inherits freedom from duplicates. -/
theorem sectionIdsNodup (dom : Dom) (p : Nat)
    (hnd : (dom.renderedAt p).Nodup) : (ctSectionCheckboxIds dom p).Nodup := by
  unfold ctSectionCheckboxIds
  exact hnd.sublist (List.filter_sublist _)

/-- Under scroll-independent rendering, the section checkbox list does not
depend on the scroll offset. -/
theorem sectionIdsConst (dom : Dom)
    (hconst : ∀ p q, dom.renderedAt p = dom.renderedAt q) (p q : Nat) :
    ctSectionCheckboxIds dom p = ctSectionCheckboxIds dom q := by
  unfold ctSectionCheckboxIds
  rw [hconst p q]

/-! ## Non-emptiness of resolved labels -/

/-- A truthy attribute holds a non-empty string. -/
theorem jsTruthyNonempty (o : Option String) (s : String)
    (ht : jsTruthy o = true) (h : o = some s) : s ≠ "" := by
  subst h
  simpa [jsTruthy] using ht

/-- Strategy 1 only returns non-empty labels. -/
theorem labelledByNonempty (byId : String → Option String) (cb : CbElem) (s : String)
    (h : ctLabelFromLabelledBy byId cb = some s) : s ≠ "" := by
  unfold ctLabelFromLabelledBy at h
  cases hx : cb.ariaLabelledBy with
  | none => rw [hx] at h; exact absurd h (by simp)
  | some idref =>
    rw [hx] at h
    dsimp only at h
    split at h
    · cases hy : byId idref with
      | none => rw [hy] at h; exact absurd h (by simp)
      | some txt =>
        rw [hy] at h
        dsimp only at h
        split at h
        · rename_i hcond
          injection h with h2
          subst h2
          exact bne_iff_ne.mp hcond
        · exact absurd h (by simp)
    · exact absurd h (by simp)

/-- Strategy 2 only returns non-empty labels. -/
theorem ariaLabelNonempty (cb : CbElem) (s : String)
    (h : ctLabelFromAriaLabel cb = some s) : s ≠ "" := by
  unfold ctLabelFromAriaLabel at h
  split at h
  · rename_i ht
    exact jsTruthyNonempty _ _ ht h
  · exact absurd h (by simp)

/-- Strategy 3 only returns non-empty labels. -/
theorem containerNonempty (cb : CbElem) (s : String)
    (h : ctLabelFromContainer cb = some s) : s ≠ "" := by
  unfold ctLabelFromContainer at h
  cases hx : cb.container with
  | none => rw [hx] at h; exact absurd h (by simp)
  | some o =>
    rw [hx] at h
    cases o with
    | none => exact absurd h (by simp)
    | some le =>
      dsimp only at h
      split at h
      · rename_i ht
        exact jsTruthyNonempty _ _ ht h
      · split at h
        · rename_i hcond
          injection h with h2
          subst h2
          have := (Bool.and_eq_true _ _).mp hcond
          exact bne_iff_ne.mp ((Bool.and_eq_true _ _).mp this.1).1
        · exact absurd h (by simp)

/-- Strategy 4 only returns labels of positive length. -/
theorem scanNonempty : ∀ (lst : List String) (n : Nat) (s : String),
    ctAncestorTextScan lst n = some s → 0 < s.length := by
  intro lst
  induction lst with
  | nil => intro n s h; cases n <;> exact absurd h (by simp [ctAncestorTextScan])
  | cons txt rest ih =>
    intro n s h
    cases n with
    | zero => exact absurd h (by simp [ctAncestorTextScan])
    | succ m =>
      unfold ctAncestorTextScan at h
      dsimp only at h
      split at h
      · split at h
        · rename_i hw
          injection h with h2
          subst h2
          exact hw
        · exact ih m s h
      · exact ih m s h

/-- Strategy 5 only returns non-empty labels. -/
theorem dataAttrsNonempty (cb : CbElem) (s : String)
    (h : ctLabelFromDataAttrs cb = some s) : s ≠ "" := by
  unfold ctLabelFromDataAttrs at h
  dsimp only at h
  split at h
  · rename_i ht
    exact jsTruthyNonempty _ _ ht h
  · exact absurd h (by simp)

/-- C10: for every checkbox element and document, `ctGetCalendarLabel`
returns either `none` or a string of positive length; it never returns the
empty string, because every accepting branch of the strategy chain
requires a non-empty value first. -/
theorem C10_resolved_label_nonempty (byId : String → Option String) (cb : CbElem)
    (s : String) (h : ctGetCalendarLabel byId cb = some s) : 0 < s.length := by
  unfold ctGetCalendarLabel at h
  cases h1 : ctLabelFromLabelledBy byId cb with
  | some r =>
    rw [h1] at h
    dsimp only at h
    injection h with h2
    subst h2
    exact strNonemptyLength _ (labelledByNonempty byId cb _ h1)
  | none =>
    rw [h1] at h
    dsimp only at h
    cases h2 : ctLabelFromAriaLabel cb with
    | some r =>
      rw [h2] at h
      dsimp only at h
      injection h with h3
      subst h3
      exact strNonemptyLength _ (ariaLabelNonempty cb _ h2)
    | none =>
      rw [h2] at h
      dsimp only at h
      cases h3 : ctLabelFromContainer cb with
      | some r =>
        rw [h3] at h
        dsimp only at h
        injection h with h4
        subst h4
        exact strNonemptyLength _ (containerNonempty cb _ h3)
      | none =>
        rw [h3] at h
        dsimp only at h
        cases h4 : ctAncestorTextScan cb.ancestorTexts 3 with
        | some r =>
          rw [h4] at h
          dsimp only at h
          injection h with h5
          subst h5
          exact scanNonempty cb.ancestorTexts 3 _ h4
        | none =>
          rw [h4] at h
          dsimp only at h
          exact strNonemptyLength _ (dataAttrsNonempty cb _ h)

/-- Witness for C10 at a concrete checkbox with `aria-label` "X". -/
theorem C10_witness : 0 < ("X" : String).length :=
  C10_resolved_label_nonempty emptyById witElem10 "X" (by decide)

/-- C5 (amended): when a toggle carries both an `aria-labelledby`
reference resolving to an element with non-empty trimmed text and a direct
`aria-label`, the referenced element's trimmed text wins.  (The
non-emptiness proviso is forced: with whitespace-only referenced text the
chain falls through to the direct attribute.) -/
theorem C5_labelledby_precedence (byId : String → Option String) (cb : CbElem)
    (idref txt a : String)
    (h1 : cb.ariaLabelledBy = some idref) (h2 : idref ≠ "")
    (h3 : byId idref = some txt) (h4 : jsTrim txt ≠ "")
    (_h5 : cb.ariaLabel = some a) :
    ctGetCalendarLabel byId cb = some (jsTrim txt) := by
  have hs1 : ctLabelFromLabelledBy byId cb = some (jsTrim txt) := by
    unfold ctLabelFromLabelledBy
    rw [h1]
    dsimp only
    rw [if_pos (bneTrueOfNe _ _ h2), h3]
    dsimp only
    rw [if_pos (bneTrueOfNe _ _ h4)]
  unfold ctGetCalendarLabel
  rw [hs1]

/-- Counterexample to C5 as stated: the reference points at an existing
element whose text trims to the empty string, and the direct attribute is
returned instead of the referenced trimmed text. -/
theorem C5_counterexample :
    cxElem5.ariaLabelledBy = some "x" ∧ cxById5 "x" = some " " ∧
    jsTrim " " = "" ∧ cxElem5.ariaLabel = some "X" ∧
    ctGetCalendarLabel cxById5 cxElem5 = some "X" := by
  refine ⟨rfl, rfl, by decide, rfl, by decide⟩

/-- Witness for C5 (amended) at a concrete toggle. -/
theorem C5_witness : ctGetCalendarLabel witById5 witElem5 = some (jsTrim " Name ") :=
  C5_labelledby_precedence witById5 witElem5 "id1" " Name " "Z" rfl (by decide)
    (by decide) (by decide) rfl

/-- C6 (amended): in strategy 3, when the container's first label-like
descendant has no accessible-name attribute, its trimmed text is accepted
exactly when it is non-empty and does not contain the substring "checkbox"
(case-sensitive); any text containing that substring — not only the exact
word — is rejected at this strategy. -/
theorem C6_container_text_rule (byId : String → Option String) (cb : CbElem)
    (le : LabelEl)
    (hc : cb.container = some (some le)) (ha : le.ariaLabel = none)
    (h1 : ctLabelFromLabelledBy byId cb = none)
    (h2 : ctLabelFromAriaLabel cb = none) :
    (jsTrim le.textContent ≠ "" →
      containsSub (jsTrim le.textContent) checkboxWord = false →
      ctGetCalendarLabel byId cb = some (jsTrim le.textContent)) ∧
    (containsSub (jsTrim le.textContent) checkboxWord = true →
      ctLabelFromContainer cb = none) := by
  constructor
  · intro hne hnc
    have hlen : 0 < (jsTrim le.textContent).length := strNonemptyLength _ hne
    have hs3 : ctLabelFromContainer cb = some (jsTrim le.textContent) := by
      unfold ctLabelFromContainer
      rw [hc]
      dsimp only
      rw [ha]
      rw [if_neg (by simp [jsTruthy])]
      rw [if_pos (by rw [bneTrueOfNe _ _ hne, hnc]; simp [hlen])]
    unfold ctGetCalendarLabel
    rw [h1]
    dsimp only
    rw [h2]
    dsimp only
    rw [hs3]
  · intro hcont
    unfold ctLabelFromContainer
    rw [hc]
    dsimp only
    rw [ha]
    rw [if_neg (by simp [jsTruthy])]
    rw [if_neg (by rw [hcont]; simp)]

/-- Counterexample to C6 as stated: container text "team checkbox" is
non-empty and differs from the single word "checkbox", yet the whole
resolver returns null (strategy 3 rejects any text containing the
substring, and no other strategy applies here). -/
theorem C6_counterexample :
    cxElem6.container = some (some ⟨none, "team checkbox"⟩) ∧
    jsTrim "team checkbox" = "team checkbox" ∧
    ("team checkbox" : String) ≠ "checkbox" ∧
    containsSub "team checkbox" checkboxWord = true ∧
    ctGetCalendarLabel emptyById cxElem6 = none := by
  refine ⟨rfl, by decide, by decide, by decide, by decide⟩

/-- Witness for C6 (amended) at a concrete toggle with container text
" Team ". -/
theorem C6_witness : ctGetCalendarLabel emptyById witElem6 = some (jsTrim (" Team " : String)) :=
  (C6_container_text_rule emptyById witElem6 ⟨none, " Team "⟩ rfl rfl (by decide)
    (by decide)).1 (by decide) (by decide)

/-! ## Collector characterization -/

/-- The collector loop is the filterMap the specification describes. -/
theorem collectLoopFilterMap (dom : Dom) (checked : List Bool) :
    ∀ lst : List Nat, ctCollectLoop dom checked lst =
      lst.filterMap (fun i => (dom.elems[i]?).bind (fun e =>
        (ctGetCalendarLabel dom.byId e).map (fun l =>
          (⟨i, l, checked.getD i false⟩ : CalendarCheckbox)))) := by
  intro lst
  induction lst with
  | nil => rfl
  | cons i rest ih =>
    unfold ctCollectLoop
    rw [List.filterMap_cons]
    cases he : dom.elems[i]? with
    | none =>
      dsimp only [Option.bind]
      exact ih
    | some e =>
      dsimp only [Option.bind]
      cases hl : ctGetCalendarLabel dom.byId e with
      | none =>
        dsimp only [Option.map]
        exact ih
      | some l =>
        dsimp only [Option.map]
        rw [ih]
        rfl

/-- C4: the collector returns the empty sequence exactly when the locator
reports not-found; otherwise, in document order, exactly the toggles
inside the located section whose label resolves to non-null, each paired
with its resolved label and current checked state — toggles with a null
label silently omitted.  The right-hand side is the definition written
from the specification's words. -/
theorem C4_collector_characterization (dom : Dom) (st : DomState) :
    (ctGetCalendarCheckboxes dom st).1 = calendarCheckboxesSpec dom st := by
  unfold ctGetCalendarCheckboxes calendarCheckboxesSpec
  dsimp only
  cases h : (ctFindCalendarSection dom st).1 with
  | none => rfl
  | some u =>
    dsimp only
    exact collectLoopFilterMap dom st.checked _

/-! ## Scroll-search termination (C7) -/

/-- C7: when the label never appears at any scroll offset, the scroll
search returns not-found, the downward sweep performs at most 10 steps,
and the upward sweep performs at most 10 steps.  (Termination itself is
inherent: the sweeps are structurally bounded loops.) -/
theorem C7_scroll_search_bounded (dom : Dom) (st : DomState) (label : String)
    (h : ∀ p, ctFindCheckboxByLabel dom p label = none) :
    (ctFindAndScrollToCheckbox dom st label).1 = none ∧
    (ctFindAndScrollToCheckbox dom st label).2.2.1 ≤ 10 ∧
    (ctFindAndScrollToCheckbox dom st label).2.2.2 ≤ 10 := by
  rcases findScrollNone dom st label h with ⟨h1, _, _, h4, h5⟩
  exact ⟨h1, h4, h5⟩

/-- Witness for C7 on a page with no checkbox anywhere and a drawer, so
both sweeps actually run. -/
theorem C7_witness :
    (ctFindAndScrollToCheckbox witDom7 witSt7 "Missing").1 = none ∧
    (ctFindAndScrollToCheckbox witDom7 witSt7 "Missing").2.2.1 ≤ 10 ∧
    (ctFindAndScrollToCheckbox witDom7 witSt7 "Missing").2.2.2 ≤ 10 :=
  C7_scroll_search_bounded witDom7 witSt7 "Missing" (fun _ => rfl)

/-! ## Frame effect of apply with disableOthers = false (C3) -/

/-- With `disableOthers = false`, the first pass never turns a checked
entry off. -/
theorem phase1MonoFalse (calendars : List String) :
    ∀ (cbs : List CalendarCheckbox) (st : DomState) (proc : List String) (j : Nat),
    st.checked.getD j false = true →
    (ctApplyRenderedLoop calendars false cbs st proc).1.checked.getD j false = true := by
  intro cbs
  induction cbs with
  | nil => intro st proc j h; exact h
  | cons cb rest ih =>
    intro st proc j h
    unfold ctApplyRenderedLoop
    apply ih
    unfold ctApplyRenderedStep
    dsimp only
    split
    · exact toggleTrueMono st cb.idx j h
    · rw [if_neg (by simp)]
      exact h

/-- C3 (amended): `apply(group, false)` never unchecks a toggle whose
resolved label lies outside `group.calendars` — a checked toggle stays
checked.  (Full state equality fails: a non-member toggle can be newly
checked when its trimmed label collides with an unprocessed group entry,
as the counterexample shows.) -/
theorem C3_apply_false_never_unchecks (dom : Dom) (g : CalendarGroup) (st : DomState)
    (i : Nat) (e : CbElem) (l : String)
    (_he : dom.elems[i]? = some e)
    (_hl : ctGetCalendarLabel dom.byId e = some l)
    (_hnm : g.calendars.contains l = false)
    (hchk : st.checked.getD i false = true) :
    (ctApplyCalendarGroup dom g false st).checked.getD i false = true := by
  unfold ctApplyCalendarGroup
  dsimp only
  split
  · exact hchk
  · exact phase2TrueMono dom _ _ _ i (phase1MonoFalse g.calendars _ st [] i hchk)

/-- Counterexample to C3 as stated: a toggle labelled " A" (outside the
group, whose only entry is "A") starts unchecked and ends checked, because
the scroll-search phase matches labels after trimming; its state after the
call differs from its state before. -/
theorem C3_counterexample :
    ctGetCalendarLabel cxDom3.byId cxElemSp3 = some " A" ∧
    cxGroup3.calendars.contains " A" = false ∧
    cxSt3.checked.getD 0 false = false ∧
    (ctApplyCalendarGroup cxDom3 cxGroup3 false cxSt3).checked.getD 0 false = true := by
  refine ⟨by decide, by decide, by decide, by decide⟩

/-- Witness for C3 (amended): a checked non-member toggle stays checked. -/
theorem C3_witness :
    (ctApplyCalendarGroup witDom3 witGroup3 false witSt3).checked.getD 0 false = true :=
  C3_apply_false_never_unchecks witDom3 witGroup3 witSt3 0 witElem3 "B"
    (by decide) (by decide) (by decide) (by decide)

/-! ## Load gate (C8) -/

/-- When every selector hit contains zero checkboxes, the selector pass
fails. -/
theorem selectorPassNone :
    ∀ hits : List (Option SectionCand),
    (∀ c ∈ hits, ∀ sc, c = some sc → sc.checkboxCount = 0) →
    ctSelectorPass hits = none := by
  intro hits
  induction hits with
  | nil => intro _; rfl
  | cons c rest ih =>
    intro h
    cases c with
    | none =>
      unfold ctSelectorPass
      exact ih (fun c2 hm sc hsc => h c2 (List.mem_cons_of_mem _ hm) sc hsc)
    | some sc =>
      unfold ctSelectorPass
      rw [if_neg (by
        have := h (some sc) (List.mem_cons_self _ _) sc rfl
        omega)]
      exact ih (fun c2 hm sc2 hsc => h c2 (List.mem_cons_of_mem _ hm) sc2 hsc)

/-- With no checkbox ever rendered and only empty selector candidates, one
locator round fails. -/
theorem tryOnceNoneOfEmpty (dom : Dom) (p : Nat)
    (hempty : ∀ q, dom.renderedAt q = [])
    (hsel : ∀ c ∈ dom.selectorHits, ∀ sc, c = some sc → sc.checkboxCount = 0) :
    ctTryFindSectionOnce dom p = none := by
  unfold ctTryFindSectionOnce
  rw [selectorPassNone dom.selectorHits hsel]
  dsimp only
  rw [hempty p]
  rfl

/-- C8: when zero toggles ever become discoverable, `ctWaitForCalendarLoad`
fails with the timeout error, carrying the raw checkbox count 0, at an
elapsed time of exactly 30000 ms — after the 30-second budget, never
earlier (the loop throws only once the elapsed time has reached the
budget). -/
theorem C8_load_gate_timeout (dom : Dom) (st : DomState)
    (hempty : ∀ p, dom.renderedAt p = [])
    (hsel : ∀ c ∈ dom.selectorHits, ∀ sc, c = some sc → sc.checkboxCount = 0) :
    ctWaitForCalendarLoad dom st = Except.error (0, 30000) := by
  have htry : ctTryFindSectionOnce dom st.scrollTop = none :=
    tryOnceNoneOfEmpty dom st.scrollTop hempty hsel
  have hsec : ctFindCalendarSection dom st = (none, 5000) := by
    rw [show ctFindCalendarSection dom st = ctFindCalendarSectionGo dom st 10 from rfl]
    rw [findSectionGoNone dom st htry 10]
  have hstep : ∀ e e2 : Nat, e < 30000 → e2 = e + 5000 + 1000 →
      ctWaitForCalendarLoadGo dom st e = ctWaitForCalendarLoadGo dom st e2 := by
    intro e e2 he heq
    conv_lhs => rw [ctWaitForCalendarLoadGo]
    rw [if_pos he]
    dsimp only
    rw [hsec]
    dsimp only
    rw [heq]
  have hfinal : ctWaitForCalendarLoadGo dom st 30000 = Except.error (0, 30000) := by
    rw [ctWaitForCalendarLoadGo]
    rw [if_neg (by omega)]
    rw [hempty st.scrollTop]
    rfl
  show ctWaitForCalendarLoadGo dom st 0 = Except.error (0, 30000)
  rw [hstep 0 6000 (by omega) (by omega), hstep 6000 12000 (by omega) (by omega),
    hstep 12000 18000 (by omega) (by omega), hstep 18000 24000 (by omega) (by omega),
    hstep 24000 30000 (by omega) (by omega), hfinal]

/-- Witness for C8 on a page with one empty selector candidate and no
checkbox ever rendered. -/
theorem C8_witness : ctWaitForCalendarLoad witDom8 witSt8 = Except.error (0, 30000) :=
  C8_load_gate_timeout witDom8 witSt8 (fun _ => rfl)
    (by
      intro c hm sc hsc
      simp only [witDom8] at hm
      rcases List.mem_singleton.mp hm with rfl
      cases hsc
      rfl)

/-! ## The discovery layer never throws (C9) -/

/-- Strategy 1 agrees with its monadic transcription: no error. -/
theorem labelledByAgree (byId : String → Option String) (cb : CbElem) :
    ctLabelFromLabelledByE byId cb = Except.ok (ctLabelFromLabelledBy byId cb) := by
  unfold ctLabelFromLabelledByE ctLabelFromLabelledBy
  cases cb.ariaLabelledBy with
  | none => rfl
  | some idref =>
    dsimp only
    split
    · cases byId idref with
      | none => rfl
      | some txt =>
        dsimp only
        split <;> rfl
    · rfl

/-- Strategy 3 agrees with its monadic transcription: no error. -/
theorem containerAgree (cb : CbElem) :
    ctLabelFromContainerE cb = Except.ok (ctLabelFromContainer cb) := by
  unfold ctLabelFromContainerE ctLabelFromContainer
  cases cb.container with
  | none => rfl
  | some o =>
    cases o with
    | none => rfl
    | some le =>
      dsimp only
      split
      · rfl
      · split <;> rfl

/-- Strategy 4 agrees with its monadic transcription: no error. -/
theorem scanAgree : ∀ (lst : List String) (n : Nat),
    ctAncestorTextScanE lst n = Except.ok (ctAncestorTextScan lst n) := by
  intro lst
  induction lst with
  | nil => intro n; cases n <;> rfl
  | cons txt rest ih =>
    intro n
    cases n with
    | zero => rfl
    | succ m =>
      unfold ctAncestorTextScanE ctAncestorTextScan
      dsimp only
      split
      · split
        · rfl
        · exact ih m
      · exact ih m

/-- The full resolver agrees with its monadic transcription: no code path
of `ctGetCalendarLabel` throws. -/
theorem labelAgree (byId : String → Option String) (cb : CbElem) :
    ctGetCalendarLabelE byId cb = Except.ok (ctGetCalendarLabel byId cb) := by
  unfold ctGetCalendarLabelE ctGetCalendarLabel
  rw [labelledByAgree byId cb]
  show Except.ok (ctLabelFromLabelledBy byId cb) >>= _ = _
  rw [show ∀ (x : Option String) (f : Option String → Except String (Option String)),
      Except.ok x >>= f = f x from fun x f => rfl]
  cases ctLabelFromLabelledBy byId cb with
  | some r => rfl
  | none =>
    dsimp only
    unfold ctLabelFromAriaLabel
    cases ht : jsTruthy cb.ariaLabel with
    | true =>
      rw [if_pos rfl, if_pos rfl]
      cases ha : cb.ariaLabel with
      | none => rw [ha] at ht; exact absurd ht (by simp [jsTruthy])
      | some a => rfl
    | false =>
      rw [if_neg (show ¬((false : Bool) = true) by simp),
        if_neg (show ¬((false : Bool) = true) by simp)]
      dsimp only
      rw [containerAgree cb]
      rw [show ∀ (x : Option String) (f : Option String → Except String (Option String)),
          Except.ok x >>= f = f x from fun x f => rfl]
      cases ctLabelFromContainer cb with
      | some r => rfl
      | none =>
        dsimp only
        rw [scanAgree cb.ancestorTexts 3]
        rw [show ∀ (x : Option String) (f : Option String → Except String (Option String)),
            Except.ok x >>= f = f x from fun x f => rfl]
        cases ctAncestorTextScan cb.ancestorTexts 3 with
        | some r => rfl
        | none =>
          dsimp only
          unfold ctLabelFromDataAttrs
          dsimp only
          split <;> rfl

/-- The locator retry loop agrees with its monadic transcription. -/
theorem findSectionGoAgree (dom : Dom) (st : DomState) :
    ∀ n, ctFindCalendarSectionGoE dom st n =
      Except.ok (ctFindCalendarSectionGo dom st n) := by
  intro n
  induction n with
  | zero => rfl
  | succ m ih =>
    unfold ctFindCalendarSectionGoE ctFindCalendarSectionGo
    cases ctTryFindSectionOnce dom st.scrollTop with
    | some s => rfl
    | none =>
      dsimp only
      rw [ih]
      rfl

/-- `ctFindCalendarSection` agrees with its monadic transcription: no code
path throws. -/
theorem findSectionAgree (dom : Dom) (st : DomState) :
    ctFindCalendarSectionE dom st = Except.ok (ctFindCalendarSection dom st) :=
  findSectionGoAgree dom st 10

/-- The downward sweep agrees with its monadic transcription. -/
theorem scrollDownAgree (dom : Dom) (d : Drawer) (label : String) :
    ∀ fuel cur top, ctScrollDownE dom d label cur top fuel =
      Except.ok (ctScrollDown dom d label cur top fuel) := by
  intro fuel
  induction fuel with
  | zero => intro cur top; rfl
  | succ m ih =>
    intro cur top
    unfold ctScrollDownE ctScrollDown
    dsimp only
    cases ctFindCheckboxByLabel dom (min (cur + 200) (maxScrollOf d)) label with
    | some i => rfl
    | none =>
      dsimp only
      split
      · rfl
      · rw [ih]
        rfl

/-- The upward sweep agrees with its monadic transcription. -/
theorem scrollUpAgree (dom : Dom) (d : Drawer) (label : String) :
    ∀ fuel cur, ctScrollUpE dom d label cur fuel =
      Except.ok (ctScrollUp dom d label cur fuel) := by
  intro fuel
  induction fuel with
  | zero => intro cur; rfl
  | succ m ih =>
    intro cur
    unfold ctScrollUpE ctScrollUp
    dsimp only
    cases ctFindCheckboxByLabel dom (min (cur - 200) (maxScrollOf d)) label with
    | some i => rfl
    | none =>
      dsimp only
      split
      · rfl
      · rw [ih]
        rfl

/-- `ctFindAndScrollToCheckbox` agrees with its monadic transcription: no
code path throws. -/
theorem findScrollAgree (dom : Dom) (st : DomState) (label : String) :
    ctFindAndScrollToCheckboxE dom st label =
      Except.ok (ctFindAndScrollToCheckbox dom st label) := by
  unfold ctFindAndScrollToCheckboxE ctFindAndScrollToCheckbox
  cases ctFindCheckboxByLabel dom st.scrollTop label with
  | some i => rfl
  | none =>
    dsimp only
    cases dom.drawer with
    | none => rfl
    | some d =>
      dsimp only
      rw [scrollDownAgree dom d label 10 st.scrollTop st.scrollTop]
      rw [show ∀ (x : Option Nat × Nat × Nat)
          (f : Option Nat × Nat × Nat → Except String (Option Nat × DomState × Nat × Nat)),
          Except.ok x >>= f = f x from fun x f => rfl]
      cases (ctScrollDown dom d label st.scrollTop st.scrollTop 10).1 with
      | some i => rfl
      | none =>
        dsimp only
        rw [scrollUpAgree dom d label 10
          (ctScrollDown dom d label st.scrollTop st.scrollTop 10).2.1]
        rfl

/-- C9: the discovery-layer operations — the section locator, the label
resolver, and the scroll search — never throw: each equals the `Except.ok`
of its sentinel-returning result (`none` / empty / not-found), for every
input and every page state. -/
theorem C9_discovery_no_throw :
    (∀ (byId : String → Option String) (cb : CbElem),
      ctGetCalendarLabelE byId cb = Except.ok (ctGetCalendarLabel byId cb)) ∧
    (∀ (dom : Dom) (st : DomState),
      ctFindCalendarSectionE dom st = Except.ok (ctFindCalendarSection dom st)) ∧
    (∀ (dom : Dom) (st : DomState) (label : String),
      ctFindAndScrollToCheckboxE dom st label =
        Except.ok (ctFindAndScrollToCheckbox dom st label)) :=
  ⟨labelAgree, findSectionAgree, findScrollAgree⟩

/-! ## Reconciliation claims: shared bridges -/

/-- A successful document lookup, unfolded to the rendered list. -/
theorem lookupSome (dom : Dom) (p : Nat) (label : String) (i : Nat)
    (h : ctFindCheckboxByLabel dom p label = some i) :
    i ∈ dom.renderedAt p ∧ ∃ e l, dom.elems[i]? = some e ∧
      ctGetCalendarLabel dom.byId e = some l ∧ jsTrim l = jsTrim label :=
  lookupGoSome dom label (dom.renderedAt p) i h

/-- A rendered element with a trim-matching label makes the lookup
succeed. -/
theorem lookupNeNone (dom : Dom) (p : Nat) (label : String) (i : Nat) (e : CbElem)
    (l : String) (hi : i ∈ dom.renderedAt p) (he : dom.elems[i]? = some e)
    (hl : ctGetCalendarLabel dom.byId e = some l) (ht : jsTrim l = jsTrim label) :
    ctFindCheckboxByLabel dom p label ≠ none := by
  intro hn
  rw [show ctFindCheckboxByLabel dom p label =
    ctFindCheckboxByLabelGo dom label (dom.renderedAt p) from rfl] at hn
  rw [lookupGoNoneIff] at hn
  exact hn i hi e he l hl ht

/-- The processed set of the first pass, characterized without any side
condition: the initial processed labels plus the snapshot labels. -/
theorem phase1Proc (calendars : List String) (dO : Bool) :
    ∀ (cbs : List CalendarCheckbox) (st : DomState) (proc : List String) (l : String),
    (ctApplyRenderedLoop calendars dO cbs st proc).2.contains l = true ↔
      (proc.contains l = true ∨ l ∈ cbs.map (fun cb => cb.label)) := by
  intro cbs
  induction cbs with
  | nil => intro st proc l; simp [ctApplyRenderedLoop]
  | cons cb rest ih =>
    intro st proc l
    unfold ctApplyRenderedLoop
    rw [ih, processedAddContains]
    simp only [List.map_cons, List.mem_cons]
    tauto

/-- On a stable state — every snapshot entry already reconciled, every
findable still-unprocessed group label already checked — a run of
`ctApplyCalendarGroup` performs zero clicks. -/
theorem applyNoClicks (dom : Dom) (g : CalendarGroup) (dO : Bool) (stx : DomState)
    (hconst : ∀ p q, dom.renderedAt p = dom.renderedAt q)
    (hA : ∀ cb ∈ ctCollectLoop dom stx.checked (ctSectionCheckboxIds dom stx.scrollTop),
      ¬(g.calendars.contains cb.label = true ∧ cb.checked = false) ∧
      ¬(g.calendars.contains cb.label = false ∧ cb.checked = true ∧ dO = true))
    (hB : ∀ l ∈ g.calendars,
      l ∉ (ctCollectLoop dom stx.checked
        (ctSectionCheckboxIds dom stx.scrollTop)).map (fun cb => cb.label) →
      ∀ i, ctFindCheckboxByLabel dom 0 l = some i →
        stx.checked.getD i false = true) :
    (ctApplyCalendarGroup dom g dO stx).clicks = stx.clicks := by
  cases hsec : ctTryFindSectionOnce dom stx.scrollTop with
  | none =>
    rw [show ctApplyCalendarGroup dom g dO stx = stx from by
      unfold ctApplyCalendarGroup
      dsimp only
      rw [collectOfNotFound dom stx hsec]
      simp]
  | some u =>
    cases u
    have hcollect := collectOfFound dom stx () hsec
    by_cases hempt : (ctCollectLoop dom stx.checked
        (ctSectionCheckboxIds dom stx.scrollTop)).length = 0
    · rw [show ctApplyCalendarGroup dom g dO stx = stx from by
        unfold ctApplyCalendarGroup
        dsimp only
        rw [hcollect, if_pos hempt]]
    · have hNA : (ctApplyRenderedLoop g.calendars dO
          (ctCollectLoop dom stx.checked (ctSectionCheckboxIds dom stx.scrollTop))
          stx []).1 = stx :=
        phase1NoAction g.calendars dO _ stx [] hA
      have happly : ctApplyCalendarGroup dom g dO stx =
          (ctApplyScrollLoop dom
            (g.calendars.filter (fun c =>
              !((ctApplyRenderedLoop g.calendars dO
                (ctCollectLoop dom stx.checked (ctSectionCheckboxIds dom stx.scrollTop))
                stx []).2.contains c)))
            stx
            (ctApplyRenderedLoop g.calendars dO
              (ctCollectLoop dom stx.checked (ctSectionCheckboxIds dom stx.scrollTop))
              stx []).2).1 := by
        unfold ctApplyCalendarGroup
        dsimp only
        rw [hcollect, if_neg hempt, hNA]
      rw [happly]
      refine (phase2NoClick dom hconst _ stx _ ?_).2
      intro l hlm i hit
      rcases List.mem_filter.mp hlm with ⟨hg, hnc⟩
      refine hB l hg ?_ i hit
      intro hmemlab
      have hcontr := (phase1Proc g.calendars dO _ stx [] l).mpr (Or.inr hmemlab)
      rw [hcontr] at hnc
      exact absurd hnc (by simp)

/-- Characterization of `ctApplyCalendarGroup` with `disableOthers = true`
on a well-behaved page: rendering is scroll-independent, rendered indices
valid and duplicate-free, every rendered checkbox inside the section,
labels and group entries trimmed, and the locator succeeding.  Every
labelled rendered element ends checked exactly when its label is a group
member. -/
theorem applyTrueCharacterization (dom : Dom) (g : CalendarGroup) (st : DomState)
    (hconst : ∀ p q, dom.renderedAt p = dom.renderedAt q)
    (hvalid : ∀ p, ∀ i ∈ dom.renderedAt p, i < dom.elems.length)
    (hnodup : ∀ p, (dom.renderedAt p).Nodup)
    (hins : ∀ p, ∀ i ∈ dom.renderedAt p, ∀ e, dom.elems[i]? = some e →
      e.inSection = true)
    (hlen : st.checked.length = dom.elems.length)
    (htriml : ∀ p, ∀ i ∈ dom.renderedAt p, ∀ e, dom.elems[i]? = some e →
      ∀ l, ctGetCalendarLabel dom.byId e = some l → jsTrim l = l)
    (htrimg : ∀ c ∈ g.calendars, jsTrim c = c)
    (hsec : ctTryFindSectionOnce dom st.scrollTop = some ()) :
    ∀ i ∈ dom.renderedAt st.scrollTop, ∀ e, dom.elems[i]? = some e →
      ∀ l, ctGetCalendarLabel dom.byId e = some l →
      (ctApplyCalendarGroup dom g true st).checked.getD i false =
        g.calendars.contains l := by
  intro i hi e he l hl
  have hcollect := collectOfFound dom st () hsec
  have hiS : i ∈ ctSectionCheckboxIds dom st.scrollTop :=
    sectionIdsMemOfRendered dom st.scrollTop i e hi he (hins st.scrollTop i hi e he)
  have hmemi : (⟨i, l, st.checked.getD i false⟩ : CalendarCheckbox) ∈
      ctCollectLoop dom st.checked (ctSectionCheckboxIds dom st.scrollTop) :=
    collectLoopComplete dom st.checked _ i e l hiS he hl
  by_cases hempt : (ctCollectLoop dom st.checked
      (ctSectionCheckboxIds dom st.scrollTop)).length = 0
  · exact absurd hmemi (by rw [List.length_eq_zero.mp hempt]; simp)
  · have happly : ctApplyCalendarGroup dom g true st =
        (ctApplyScrollLoop dom
          (g.calendars.filter (fun c =>
            !((ctApplyRenderedLoop g.calendars true
              (ctCollectLoop dom st.checked (ctSectionCheckboxIds dom st.scrollTop))
              st []).2.contains c)))
          (ctApplyRenderedLoop g.calendars true
            (ctCollectLoop dom st.checked (ctSectionCheckboxIds dom st.scrollTop))
            st []).1
          (ctApplyRenderedLoop g.calendars true
            (ctCollectLoop dom st.checked (ctSectionCheckboxIds dom st.scrollTop))
            st []).2).1 := by
      unfold ctApplyCalendarGroup
      dsimp only
      rw [hcollect, if_neg hempt]
    have hSnd : (ctSectionCheckboxIds dom st.scrollTop).Nodup :=
      sectionIdsNodup dom _ (hnodup _)
    have hcbsnd : ((ctCollectLoop dom st.checked
        (ctSectionCheckboxIds dom st.scrollTop)).map (fun cb => cb.idx)).Nodup :=
      (collectLoopIdxSublist dom st.checked _).nodup hSnd
    have hcbsbound : ∀ cb ∈ ctCollectLoop dom st.checked
        (ctSectionCheckboxIds dom st.scrollTop), cb.idx < st.checked.length := by
      intro cb hm
      rcases collectLoopMem dom st.checked _ cb hm with ⟨hmS, _⟩
      rw [hlen]
      exact hvalid st.scrollTop cb.idx (sectionIdsSubRendered dom _ _ hmS)
    have hcbscons : ∀ cb ∈ ctCollectLoop dom st.checked
        (ctSectionCheckboxIds dom st.scrollTop),
        cb.checked = st.checked.getD cb.idx false := by
      intro cb hm
      rcases collectLoopMem dom st.checked _ cb hm with ⟨_, e2, _, _, hc⟩
      exact hc
    rcases phase1Spec g.calendars true _ st [] hcbsnd hcbsbound hcbscons with
      ⟨_, _, hSelf1, _, _⟩
    have hunfind : ∀ l2 ∈ g.calendars.filter (fun c =>
        !((ctApplyRenderedLoop g.calendars true
          (ctCollectLoop dom st.checked (ctSectionCheckboxIds dom st.scrollTop))
          st []).2.contains c)), ∀ p, ctFindCheckboxByLabel dom p l2 = none := by
      intro l2 hl2 p
      rcases List.mem_filter.mp hl2 with ⟨hg2, hnp⟩
      cases hfind : ctFindCheckboxByLabel dom p l2 with
      | none => rfl
      | some k =>
        exfalso
        rcases lookupSome dom p l2 k hfind with ⟨hkr, ek, lk, hek, hlk, htk⟩
        have hkr0 : k ∈ dom.renderedAt st.scrollTop := by
          rw [hconst st.scrollTop p]; exact hkr
        have hlkfix : jsTrim lk = lk := htriml p k hkr ek hek lk hlk
        have hl2fix : jsTrim l2 = l2 := htrimg l2 hg2
        have heq : lk = l2 := by rw [← hlkfix, htk, hl2fix]
        have hmemk : (⟨k, lk, st.checked.getD k false⟩ : CalendarCheckbox) ∈
            ctCollectLoop dom st.checked (ctSectionCheckboxIds dom st.scrollTop) :=
          collectLoopComplete dom st.checked _ k ek lk
            (sectionIdsMemOfRendered dom _ k ek hkr0 hek (hins _ k hkr0 ek hek))
            hek hlk
        have hproc := (phase1Proc g.calendars true _ st [] l2).mpr
          (Or.inr (by rw [← heq]; exact List.mem_map_of_mem _ hmemk))
        rw [hproc] at hnp
        exact absurd hnp (by simp)
    rcases phase2NoFind dom _ _ _ hunfind with ⟨hchkEq, _⟩
    rw [happly, hchkEq]
    have hval := hSelf1 _ hmemi
    rw [hval]
    unfold phase1Target
    dsimp only
    cases hcont : g.calendars.contains l with
    | true => rw [if_pos rfl]
    | false =>
      rw [if_neg (by simp)]
      rw [if_pos rfl]

/-- C1 (amended): on a page whose rendered toggle set does not depend on
the scroll offset, with every rendered toggle inside the located section
and all labels trimmed, after `apply(group, true)` a label is carried by a
checked toggle exactly when it is a group member and discoverable by the
scroll search.  The original claim fails without these provisos: a checked
non-member toggle that the scroll search can reach but the section
snapshot cannot (outside the section, or rendered only at another scroll
offset) is never unchecked — see the counterexample. -/
theorem C1_apply_true_reconciles (dom : Dom) (g : CalendarGroup) (st : DomState)
    (hconst : ∀ p q, dom.renderedAt p = dom.renderedAt q)
    (hvalid : ∀ p, ∀ i ∈ dom.renderedAt p, i < dom.elems.length)
    (hnodup : ∀ p, (dom.renderedAt p).Nodup)
    (hins : ∀ p, ∀ i ∈ dom.renderedAt p, ∀ e, dom.elems[i]? = some e →
      e.inSection = true)
    (hlen : st.checked.length = dom.elems.length)
    (htriml : ∀ p, ∀ i ∈ dom.renderedAt p, ∀ e, dom.elems[i]? = some e →
      ∀ l, ctGetCalendarLabel dom.byId e = some l → jsTrim l = l)
    (htrimg : ∀ c ∈ g.calendars, jsTrim c = c)
    (hsec : ctTryFindSectionOnce dom st.scrollTop = some ()) :
    ∀ L : String,
      (∃ i ∈ dom.renderedAt (ctApplyCalendarGroup dom g true st).scrollTop,
        ∃ e, dom.elems[i]? = some e ∧ ctGetCalendarLabel dom.byId e = some L ∧
          (ctApplyCalendarGroup dom g true st).checked.getD i false = true) ↔
      (g.calendars.contains L = true ∧
        (ctFindAndScrollToCheckbox dom (ctApplyCalendarGroup dom g true st)
          L).1.isSome = true) := by
  intro L
  have hchar := applyTrueCharacterization dom g st hconst hvalid hnodup hins hlen
    htriml htrimg hsec
  constructor
  · rintro ⟨i, hi, e, he, hL, hchk⟩
    have hi0 : i ∈ dom.renderedAt st.scrollTop := by
      rw [hconst st.scrollTop (ctApplyCalendarGroup dom g true st).scrollTop]
      exact hi
    have hval := hchar i hi0 e he L hL
    rw [hval] at hchk
    refine ⟨hchk, ?_⟩
    have hne := lookupNeNone dom
      (ctApplyCalendarGroup dom g true st).scrollTop L i e L hi he hL rfl
    cases hfind : ctFindCheckboxByLabel dom
        (ctApplyCalendarGroup dom g true st).scrollTop L with
    | none => exact absurd hfind hne
    | some k =>
      rw [findScrollDirect dom (ctApplyCalendarGroup dom g true st) L k hfind]
      rfl
  · rintro ⟨hm, hsome⟩
    rcases Option.isSome_iff_exists.mp hsome with ⟨k, hk⟩
    rcases findScrollSome dom (ctApplyCalendarGroup dom g true st) L k hk with ⟨p, hlook⟩
    rcases lookupSome dom p L k hlook with ⟨hkr, ek, lk, hek, hlk, htk⟩
    have hkfix : jsTrim lk = lk := htriml p k hkr ek hek lk hlk
    have hLfix : jsTrim L = L := htrimg L ((strContainsIffMem _ _).mp hm)
    have heq : lk = L := by rw [← hkfix, htk, hLfix]
    have hkpost : k ∈ dom.renderedAt (ctApplyCalendarGroup dom g true st).scrollTop := by
      rw [hconst (ctApplyCalendarGroup dom g true st).scrollTop p]
      exact hkr
    have hk0 : k ∈ dom.renderedAt st.scrollTop := by
      rw [hconst st.scrollTop p]
      exact hkr
    have hval := hchar k hk0 ek hek lk hlk
    refine ⟨k, hkpost, ek, hek, by rw [heq] at hlk; exact hlk, ?_⟩
    rw [hval, heq, hm]

/-- Counterexample to C1 as stated: after `apply(group, true)` on a page
with a checked toggle "B" outside the located section, "B" is carried by a
checked toggle and is discoverable by the scroll search, yet "B" is not in
`group.calendars` — the checked set is strictly larger than the
intersection of the group with the discoverable labels. -/
theorem C1_counterexample :
    1 ∈ cxDom1.renderedAt (ctApplyCalendarGroup cxDom1 cxGroup1 true cxSt1).scrollTop ∧
    cxDom1.elems[1]? = some cxElemB1 ∧
    ctGetCalendarLabel cxDom1.byId cxElemB1 = some "B" ∧
    (ctApplyCalendarGroup cxDom1 cxGroup1 true cxSt1).checked.getD 1 false = true ∧
    cxGroup1.calendars.contains "B" = false ∧
    (ctFindAndScrollToCheckbox cxDom1 (ctApplyCalendarGroup cxDom1 cxGroup1 true cxSt1)
      "B").1.isSome = true := by
  refine ⟨by decide, by decide, by decide, by decide, by decide, by decide⟩

/-- Witness for C1 (amended) at the label "A" on a concrete well-behaved
page. -/
theorem C1_witness :
    (∃ i ∈ witDom1.renderedAt (ctApplyCalendarGroup witDom1 witGroup1 true witSt1).scrollTop,
      ∃ e, witDom1.elems[i]? = some e ∧ ctGetCalendarLabel witDom1.byId e = some "A" ∧
        (ctApplyCalendarGroup witDom1 witGroup1 true witSt1).checked.getD i false = true) ↔
    (witGroup1.calendars.contains "A" = true ∧
      (ctFindAndScrollToCheckbox witDom1 (ctApplyCalendarGroup witDom1 witGroup1 true witSt1)
        "A").1.isSome = true) :=
  C1_apply_true_reconciles witDom1 witGroup1 witSt1
    (fun _ _ => rfl)
    (by intro p i hi; simp only [witDom1] at hi ⊢; simp at hi; subst hi; simp)
    (by intro p; simp [witDom1])
    (by
      intro p i hi e he
      simp only [witDom1] at hi
      simp at hi
      subst hi
      simp only [witDom1] at he
      simp at he
      subst he
      rfl)
    rfl
    (by
      intro p i hi e he l hl
      simp only [witDom1] at hi
      simp at hi
      subst hi
      simp only [witDom1] at he
      simp at he
      subst he
      have : l = "A" := by
        have h2 : ctGetCalendarLabel witDom1.byId witElem1 = some "A" := by decide
        rw [show witDom1.byId = emptyById from rfl] at hl
        rw [show witDom1.byId = emptyById from rfl] at h2
        rw [h2] at hl
        injection hl with h3
        exact h3.symm
      subst this
      decide)
    (by
      intro c hc
      simp only [witGroup1] at hc
      simp at hc
      subst hc
      decide)
    (by decide)
    "A"

/-- C2 (amended): on a page whose rendered toggle set does not depend on
the scroll offset and whose labels and group entries are trimmed, running
`apply(group, flag)` twice in a row (any flag) performs zero activation
calls during the second invocation.  Without these provisos the claim
fails: the first call can check a toggle via a trimmed-label collision, or
end at a scroll offset rendering a toggle its snapshot never saw, and the
second call then activates it — see the counterexample. -/
theorem C2_apply_idempotent (dom : Dom) (g : CalendarGroup) (dO : Bool) (st : DomState)
    (hconst : ∀ p q, dom.renderedAt p = dom.renderedAt q)
    (hvalid : ∀ p, ∀ i ∈ dom.renderedAt p, i < dom.elems.length)
    (hnodup : ∀ p, (dom.renderedAt p).Nodup)
    (hlen : st.checked.length = dom.elems.length)
    (htriml : ∀ p, ∀ i ∈ dom.renderedAt p, ∀ e, dom.elems[i]? = some e →
      ∀ l, ctGetCalendarLabel dom.byId e = some l → jsTrim l = l)
    (htrimg : ∀ c ∈ g.calendars, jsTrim c = c) :
    (ctApplyCalendarGroup dom g dO (ctApplyCalendarGroup dom g dO st)).clicks =
      (ctApplyCalendarGroup dom g dO st).clicks := by
  cases hsecO : ctTryFindSectionOnce dom st.scrollTop with
  | none =>
    have happly : ctApplyCalendarGroup dom g dO st = st := by
      unfold ctApplyCalendarGroup
      dsimp only
      rw [collectOfNotFound dom st hsecO]
      simp
    rw [happly, happly]
  | some u =>
    cases u
    have hcollect0 := collectOfFound dom st () hsecO
    by_cases hempt : (ctCollectLoop dom st.checked
        (ctSectionCheckboxIds dom st.scrollTop)).length = 0
    · have happly : ctApplyCalendarGroup dom g dO st = st := by
        unfold ctApplyCalendarGroup
        dsimp only
        rw [hcollect0, if_pos hempt]
      rw [happly, happly]
    · set S := ctSectionCheckboxIds dom st.scrollTop with hS
      set cbs := ctCollectLoop dom st.checked S with hcbs
      set loop1 := ctApplyRenderedLoop g.calendars dO cbs st [] with hloop1
      set unproc := g.calendars.filter (fun c => !(loop1.2.contains c)) with hunproc
      have happly1 : ctApplyCalendarGroup dom g dO st =
          (ctApplyScrollLoop dom unproc loop1.1 loop1.2).1 := by
        unfold ctApplyCalendarGroup
        dsimp only
        rw [hcollect0, if_neg hempt, ← hloop1, ← hunproc]
      set st2 := (ctApplyScrollLoop dom unproc loop1.1 loop1.2).1 with hst2
      have hSnd : S.Nodup := by
        rw [hS]
        exact sectionIdsNodup dom _ (hnodup _)
      have hcbsnd : (cbs.map (fun cb => cb.idx)).Nodup := by
        rw [hcbs]
        exact (collectLoopIdxSublist dom st.checked S).nodup hSnd
      have hcbsbound : ∀ cb ∈ cbs, cb.idx < st.checked.length := by
        intro cb hm
        rw [hcbs] at hm
        rcases collectLoopMem dom st.checked S cb hm with ⟨hmS, _⟩
        rw [hlen]
        refine hvalid st.scrollTop cb.idx ?_
        rw [hS] at hmS
        exact sectionIdsSubRendered dom _ _ hmS
      have hcbscons : ∀ cb ∈ cbs, cb.checked = st.checked.getD cb.idx false := by
        intro cb hm
        rw [hcbs] at hm
        rcases collectLoopMem dom st.checked S cb hm with ⟨_, e2, _, _, hc⟩
        exact hc
      rcases phase1Spec g.calendars dO cbs st [] hcbsnd hcbsbound hcbscons with
        ⟨_, hLen1, hSelf1, _, _⟩
      rw [← hloop1] at hSelf1 hLen1
      have hhits : ∀ l ∈ unproc, ∀ i, ctFindCheckboxByLabel dom 0 l = some i →
          st2.checked.getD i false = true := by
        intro l hl i hit
        have hib : i < loop1.1.checked.length := by
          rcases lookupSome dom 0 l i hit with ⟨hir, _⟩
          rw [hLen1, hlen]
          exact hvalid 0 i hir
        rw [hst2]
        exact phase2SetsHits dom hconst unproc loop1.1 loop1.2 l hl i hit hib
      have hS2 : ctSectionCheckboxIds dom st2.scrollTop = S := by
        rw [hS]
        exact sectionIdsConst dom hconst st2.scrollTop st.scrollTop
      have hlabels : (ctCollectLoop dom st2.checked S).map (fun cb => cb.label) =
          cbs.map (fun cb => cb.label) := by
        rw [hcbs]
        have hskel := collectLoopSkeleton dom st2.checked st.checked S
        have hmap := congrArg (List.map Prod.snd) hskel
        simpa [List.map_map, Function.comp] using hmap
      have hA : ∀ cb ∈ ctCollectLoop dom st2.checked
          (ctSectionCheckboxIds dom st2.scrollTop),
          ¬(g.calendars.contains cb.label = true ∧ cb.checked = false) ∧
          ¬(g.calendars.contains cb.label = false ∧ cb.checked = true ∧ dO = true) := by
        intro cb2 hm2
        rw [hS2] at hm2
        rcases collectLoopMem dom st2.checked S cb2 hm2 with ⟨hmS, e, he, hle, hch⟩
        have hm1 : (⟨cb2.idx, cb2.label, st.checked.getD cb2.idx false⟩ :
            CalendarCheckbox) ∈ cbs := by
          rw [hcbs]
          exact collectLoopComplete dom st.checked S cb2.idx e cb2.label hmS he hle
        have huntouch : st2.checked.getD cb2.idx false =
            loop1.1.checked.getD cb2.idx false := by
          rw [hst2]
          refine phase2Untouched dom hconst unproc loop1.1 loop1.2 cb2.idx ?_
          intro l hlm p hfind
          rcases lookupSome dom p l cb2.idx hfind with ⟨hkr, ek, lk, hek, hlk, htk⟩
          have hee : ek = e := by
            have h2 := he.symm.trans hek
            injection h2 with h3
            exact h3.symm
          subst hee
          have hlke : lk = cb2.label := by
            have h2 := hle.symm.trans hlk
            injection h2 with h3
            exact h3.symm
          rw [hunproc] at hlm
          rcases List.mem_filter.mp hlm with ⟨hgl, hncl⟩
          have hlkfix : jsTrim lk = lk := htriml p cb2.idx hkr ek hek lk hlk
          have hlfix : jsTrim l = l := htrimg l hgl
          have hll : lk = l := by rw [← hlkfix, htk, hlfix]
          have hmemlab : l ∈ cbs.map (fun cb => cb.label) := by
            rw [← hll, hlke]
            exact List.mem_map.mpr ⟨_, hm1, rfl⟩
          have hcontains : loop1.2.contains l = true := by
            rw [hloop1]
            exact (phase1Proc g.calendars dO cbs st [] l).mpr (Or.inr hmemlab)
          rw [hcontains] at hncl
          exact absurd hncl (by simp)
        have hval : st2.checked.getD cb2.idx false =
            phase1Target g.calendars dO
              ⟨cb2.idx, cb2.label, st.checked.getD cb2.idx false⟩ := by
          rw [huntouch]
          exact hSelf1 _ hm1
        constructor
        · rintro ⟨hc1, hc2⟩
          rw [hch, hval] at hc2
          simp [phase1Target, hc1] at hc2
          exact hc2.1 ((strContainsIffMem _ _).mp hc1)
        · rintro ⟨hc1, hc2, hdO⟩
          rw [hch, hval] at hc2
          simp [phase1Target, hc1, hdO] at hc2
          have hcc := (strContainsIffMem g.calendars cb2.label).mpr hc2
          rw [hc1] at hcc
          exact absurd hcc (by simp)
      have hB : ∀ l ∈ g.calendars,
          l ∉ (ctCollectLoop dom st2.checked
            (ctSectionCheckboxIds dom st2.scrollTop)).map (fun cb => cb.label) →
          ∀ i, ctFindCheckboxByLabel dom 0 l = some i →
            st2.checked.getD i false = true := by
        intro l hg hnotlab i hit
        rw [hS2, hlabels] at hnotlab
        refine hhits l ?_ i hit
        rw [hunproc]
        refine List.mem_filter.mpr ⟨hg, ?_⟩
        have hnc : loop1.2.contains l = false := by
          cases hcl : loop1.2.contains l with
          | false => rfl
          | true =>
            exfalso
            have h2 := (phase1Proc g.calendars dO cbs st [] l).mp
              (by rw [← hloop1]; exact hcl)
            rcases h2 with h2 | h2
            · exact absurd h2 (by simp)
            · exact hnotlab h2
        rw [hnc]
        rfl
      rw [happly1]
      exact applyNoClicks dom g dO st2 hconst hA hB

/-- Counterexample to C2 as stated: one in-section toggle labelled " A"
(with a leading space) and the group entry "A".  The first call checks it
through the trim-matching scroll search (1 click); the second call, seeing
a checked non-member, unchecks it and then re-checks it (2 more clicks) —
the second invocation is not activation-free, and the state oscillates. -/
theorem C2_counterexample :
    (ctApplyCalendarGroup cxDom2 cxGroup2 true cxSt2).clicks = 1 ∧
    (ctApplyCalendarGroup cxDom2 cxGroup2 true
      (ctApplyCalendarGroup cxDom2 cxGroup2 true cxSt2)).clicks = 3 := by
  refine ⟨by decide, by decide⟩

/-- Witness for C2 (amended) on a concrete well-behaved page. -/
theorem C2_witness :
    (ctApplyCalendarGroup witDom2 witGroup2 true
      (ctApplyCalendarGroup witDom2 witGroup2 true witSt2)).clicks =
      (ctApplyCalendarGroup witDom2 witGroup2 true witSt2).clicks :=
  C2_apply_idempotent witDom2 witGroup2 true witSt2
    (fun _ _ => rfl)
    (by intro p i hi; simp only [witDom2] at hi ⊢; simp at hi; subst hi; simp)
    (by intro p; simp [witDom2])
    rfl
    (by
      intro p i hi e he l hl
      simp only [witDom2] at hi
      simp at hi
      subst hi
      simp only [witDom2] at he
      simp at he
      subst he
      have h2 : ctGetCalendarLabel witDom2.byId witElem2 = some "A" := by decide
      rw [show witDom2.byId = emptyById from rfl] at hl
      rw [show witDom2.byId = emptyById from rfl] at h2
      rw [h2] at hl
      injection hl with h3
      subst h3
      decide)
    (by
      intro c hc
      simp only [witGroup2] at hc
      simp at hc
      subst hc
      decide)
